import Mathlib

/-!
# Credential issuance service: Register and Login

A shallow embedding of the authentication flow of the repository
(`internal/service/auth_service.go`, `internal/repository/user_repository.go`,
`internal/model/user.go`), of the path of a call through the server
(`internal/middleware`, `internal/handler/auth_handler.go`,
`internal/server/grpc_server.go`) and theorems about them.

Conventions of the embedding.

* Go strings and byte slices are Lean strings (`[]byte(s)` and `string(b)` are
  the identity).
* A Go method that mutates the database takes the table state and returns the
  new one next to its result.
* What the outside world contributes to a call (the clock, `uuid.New()`, the
  entropy of the salt, a failure of the database driver) is an explicit input
  of that call.
* The imported libraries bcrypt and golang-jwt are not part of the repository:
  their primitives are fields of `Lib`, and a property of a primitive that a
  theorem needs is a hypothesis of that theorem.
* The database is the table `users` with the constraints that
  `test/integration/authentication_test.go` declares for it.
-/

namespace EmailMarketing

/-! ## Errors and results -/

/-- Go error values, by the way the code builds them. -/
inductive GoError where
  /-- Value of `errors.New(msg)`. -/
  | new (msg : String)
  /-- Value of `fmt.Errorf(msg + ": %w", inner)`. -/
  | errorf (msg : String) (inner : GoError)
  /-- The sentinel `sql.ErrNoRows`. -/
  | ErrNoRows
  /-- A unique-constraint violation reported by PostgreSQL (SQLSTATE 23505). -/
  | uniqueViolation (constraintName : String)
  /-- Any other error value raised by an imported library or driver. -/
  | external (pkg : String) (msg : String)
  /-- Value of `status.Errorf(code, msg)`. -/
  | status (code : Nat) (msg : String)
  deriving DecidableEq, Repr

/-- Method `codes.Code.String()` of grpc, on the numeric code. -/
def codeString (code : Nat) : String :=
  match code with
  | 0 => "OK"
  | 1 => "Canceled"
  | 2 => "Unknown"
  | 3 => "InvalidArgument"
  | 4 => "DeadlineExceeded"
  | 5 => "NotFound"
  | 6 => "AlreadyExists"
  | 7 => "PermissionDenied"
  | 8 => "ResourceExhausted"
  | 9 => "FailedPrecondition"
  | 10 => "Aborted"
  | 11 => "OutOfRange"
  | 12 => "Unimplemented"
  | 13 => "Internal"
  | 14 => "Unavailable"
  | 15 => "DataLoss"
  | 16 => "Unauthenticated"
  | n => "Code(" ++ toString n ++ ")"

/-- The method `Error()` of an error value. -/
def GoError.Error : GoError → String
  | .new msg => msg
  | .errorf msg inner => msg ++ ": " ++ inner.Error
  | .ErrNoRows => "sql: no rows in result set"
  | .uniqueViolation c => "pq: duplicate key value violates unique constraint " ++ c
  | .external _ msg => msg
  | .status code msg => "rpc error: code = " ++ codeString code ++ " desc = " ++ msg

/-- Outcome of a Go call of type `(T, error)`: a value, an error, or a run-time
panic (nil dereference, slice out of range). -/
inductive Result (α : Type) where
  | ok (v : α)
  | err (e : GoError)
  | panicked (why : String)
  deriving DecidableEq, Repr

/-- The four caller-facing error kinds named by the specification. -/
inductive ErrorKind where
  | InvalidArgument
  | AlreadyExists
  | InvalidCredentials
  | Internal
  deriving DecidableEq, Repr

/-- Reading of the specification's error kinds on the error values the code
builds.  The code has no kind field: the three errors it builds for a missing
field, a taken email and a rejected login are told apart by their value, and
every other error (hashing, signing, a failure of the store) is `Internal`. -/
def errorKind : GoError → ErrorKind
  | .new msg =>
    if msg = "email and password are required" then .InvalidArgument
    else if msg = "email already registered" then .AlreadyExists
    else if msg = "invalid email or password" then .InvalidCredentials
    else .Internal
  | _ => .Internal

/-! ## `internal/model/user.go` -/

/-- Go `type Language int32`. -/
abbrev Language := Int

/-- Constant `model.Language_EN`. -/
def Language_EN : Language := 0

/-- Constant `model.Language_FA`. -/
def Language_FA : Language := 1

/-- Go `uuid.UUID`, an array of 16 bytes. -/
structure UUID where
  bytes : List (Fin 256)
  size : bytes.length = 16
  deriving DecidableEq, Repr

/-- Go `hextable`, the digits of `encoding/hex`. -/
def hextable : String := "0123456789abcdef"

/-- One hexadecimal digit, lower case: `hextable[n]`. -/
def hexDigit (n : Nat) : Char := hextable.data.getD n '0'

/-- Go `hex.Encode`: two lower-case digits per byte. -/
def hexEncode : List (Fin 256) → List Char
  | [] => []
  | b :: bs => hexDigit (b.val / 16) :: hexDigit (b.val % 16) :: hexEncode bs

/-- Method `UUID.String()`: the form `xxxxxxxx-xxxx-xxxx-xxxx-xxxxxxxxxxxx`. -/
def UUID.String (u : UUID) : String :=
  String.mk
    (hexEncode (u.bytes.take 4) ++ '-' ::
      (hexEncode ((u.bytes.drop 4).take 2) ++ '-' ::
        (hexEncode ((u.bytes.drop 6).take 2) ++ '-' ::
          (hexEncode ((u.bytes.drop 8).take 2) ++ '-' ::
            hexEncode (u.bytes.drop 10)))))

/-- Go `time.Time`, as nanoseconds since the Unix epoch. -/
abbrev Time := Int

/-- Go `time.Duration`, in nanoseconds. -/
abbrev Duration := Int

/-- Constant `time.Hour`. -/
def Hour : Duration := 3600 * 1000000000

/-- Method `Time.Add`. -/
def Time.Add (t : Time) (d : Duration) : Time := t + d

/-- Method `Time.Unix`: whole seconds since the epoch, rounded down. -/
def Time.Unix (t : Time) : Int := t / 1000000000

/-- Go `model.User`, one row of the table `users`. -/
structure User where
  ID : UUID
  Email : String
  PasswordHash : String
  Lang : Language
  ReferralCode : String
  ReferrerCode : Int
  CreatedAt : Time
  deriving DecidableEq, Repr

/-! ## Messages of `api/v1/proto` -/

/-- Go `proto.RegisterRequest_Language`, an open `int32` enumeration. -/
abbrev RegisterRequest_Language := Int

/-- Modelled from the spec: the generated constant `proto.RegisterRequest_EN`
(the package `api/v1/proto` is generated code); `EN` is the first value of the
enumeration `{EN, FA}`. -/
def RegisterRequest_EN : RegisterRequest_Language := 0

/-- Modelled from the spec: the generated constant `proto.RegisterRequest_FA`,
the second value of the enumeration `{EN, FA}`. -/
def RegisterRequest_FA : RegisterRequest_Language := 1

/-- Go `proto.RegisterRequest`. -/
structure RegisterRequest where
  Email : String
  Password : String
  Lang : RegisterRequest_Language
  ReferrerCode : Int
  deriving DecidableEq, Repr

/-- Go `proto.RegisterResponse`. -/
structure RegisterResponse where
  Id : String
  ReferralCode : String
  JwtToken : String
  deriving DecidableEq, Repr

/-- Go `proto.LoginRequest`. -/
structure LoginRequest where
  Email : String
  Password : String
  deriving DecidableEq, Repr

/-- Go `proto.LoginResponse`. -/
structure LoginResponse where
  JwtCode : String
  deriving DecidableEq, Repr

/-! ## Imported libraries -/

/-- Signing methods of golang-jwt. -/
inductive SigningMethod where
  | HS256
  | HS384
  | HS512
  | RS256
  | ES256
  deriving DecidableEq, Repr

/-- A value of a `jwt.MapClaims` entry. -/
inductive ClaimValue where
  | str (s : String)
  | num (n : Int)
  deriving DecidableEq, Repr

/-- Go `jwt.Token` before signing: the method and the claims, as the list of
the entries of the `jwt.MapClaims` literal. -/
structure Token where
  Method : SigningMethod
  Claims : List (String × ClaimValue)
  deriving DecidableEq, Repr

/-- Function `jwt.NewWithClaims`. -/
def NewWithClaims (method : SigningMethod) (claims : List (String × ClaimValue)) : Token :=
  { Method := method, Claims := claims }

/-- Constant `bcrypt.DefaultCost`. -/
def DefaultCost : Nat := 10

/-- Primitives of the imported libraries the service calls. -/
structure Lib where
  /-- Function `bcrypt.GenerateFromPassword(password, cost)`; the third argument is
  the entropy the call draws for the salt. -/
  GenerateFromPassword : String → Nat → Nat → Except GoError String
  /-- Function `bcrypt.CompareHashAndPassword(hashedPassword, password)`; `none` is the
  nil error, a match. -/
  CompareHashAndPassword : String → String → Option GoError
  /-- Method `Token.SigningString()`: encoded header, a dot, encoded claims. -/
  SigningString : Token → Except GoError String
  /-- Method `SigningMethod.Sign(signingString, key)`. -/
  Sign : SigningMethod → String → String → Except GoError String
  /-- Method `Token.EncodeSegment`: base64url without padding. -/
  EncodeSegment : String → String

/-- Method `Token.SignedString(key)` of golang-jwt: the signing string, a dot and
the encoded signature. -/
def SignedString (L : Lib) (t : Token) (key : String) : Except GoError String :=
  match L.SigningString t with
  | .error e => .error e
  | .ok sstr =>
    match L.Sign t.Method sstr key with
    | .error e => .error e
    | .ok sig => .ok (sstr ++ "." ++ L.EncodeSegment sig)

/-! ## The table `users` -/

/-- State of the database: the rows of the table `users`, oldest first. -/
structure DB where
  users : List User
  deriving DecidableEq, Repr

/-- What the outside world contributes to one call of the repository. -/
structure SqlEnv where
  /-- Failure of the driver on the first statement of the call, if any. -/
  queryErr : Option GoError
  /-- Result of `uuid.New()`. -/
  newID : UUID
  /-- Result of `time.Now().UTC()`. -/
  now : Time
  /-- Failure of the driver on the `INSERT` before the statement takes effect,
  other than a constraint of the table, if any. -/
  insertErr : Option GoError
  /-- Failure of the driver on the `INSERT` after the row is stored, if any: the
  statement is a single autocommit `INSERT` outside any transaction, so an error
  met while its reply is read (a lost connection, an expired context) reaches
  the caller with the row already in the table. -/
  insertLateErr : Option GoError

/-- Statement `SELECT EXISTS(SELECT 1 FROM users WHERE email=$1)`. -/
def DB.emailExists (db : DB) (email : String) : Bool :=
  db.users.any (fun u => u.Email == email)

/-- Statement `SELECT ... FROM users WHERE email = $1` read with `GetContext`: the
first matching row, `sql.ErrNoRows` when there is none. -/
def DB.selectByEmail (db : DB) (email : String) : Except GoError User :=
  match db.users.find? (fun u => u.Email == email) with
  | some u => .ok u
  | none => .error GoError.ErrNoRows

/-- Statement `INSERT INTO users ... RETURNING ...` under the constraints of the
table (`id` primary key, `email` unique, `referral_code` unique): the row is
added and returned, or the violated constraint is reported and the table is
left as it was.  The row comes back as it was sent: the rounding of
`created_at` to the precision of the column is not modelled, and nothing below
reads that field. -/
def DB.insert (db : DB) (row : User) : Except GoError (User × DB) :=
  if db.users.any (fun u => u.ID == row.ID) then
    .error (GoError.uniqueViolation "users_pkey")
  else if db.users.any (fun u => u.Email == row.Email) then
    .error (GoError.uniqueViolation "users_email_key")
  else if db.users.any (fun u => u.ReferralCode == row.ReferralCode) then
    .error (GoError.uniqueViolation "users_referral_code_key")
  else .ok (row, { users := db.users ++ [row] })

/-- Go slice expression `s[:n]` on a string of one-byte characters; `none` is the
run-time panic of a bound out of range. -/
def sliceTo (s : String) (n : Nat) : Option String :=
  if n ≤ s.length then some (String.mk (s.data.take n)) else none

/-! ## `internal/repository/user_repository.go` -/

/-- Go interface `repository.UserRepository` over a store state `σ`.  A result
`ok none` is the Go pair `(nil, nil)`. -/
structure UserRepository (σ : Type) where
  Create : σ → String → String → Language → Int → Result (Option User) × σ
  GetByEmail : σ → String → Result (Option User) × σ

/-- Method `userRepository.Create`.  The `INSERT` can fail before it takes effect
(a failure of the driver, a constraint of the table), with the table as it
was, or after the row is stored, with the row in the table. -/
def userRepository.Create (env : SqlEnv) (db : DB) (email passwordHash : String)
    (lang : Language) (referrerCode : Int) : Result (Option User) × DB :=
  match env.queryErr with
  | some err => (.err (.errorf "error checking existing email" err), db)
  | none =>
    if db.emailExists email then (.err (.new "email already registered"), db)
    else
      let id := env.newID
      match sliceTo id.String 8 with
      | none => (.panicked "slice bounds out of range", db)
      | some refCode =>
        let createdAt := env.now
        let row : User :=
          { ID := id, Email := email, PasswordHash := passwordHash, Lang := lang,
            ReferralCode := refCode, ReferrerCode := referrerCode, CreatedAt := createdAt }
        match env.insertErr with
        | some err => (.err (.errorf "error inserting user" err), db)
        | none =>
          match db.insert row with
          | .error err => (.err (.errorf "error inserting user" err), db)
          | .ok (u, db1) =>
            match env.insertLateErr with
            | some err => (.err (.errorf "error inserting user" err), db1)
            | none => (.ok (some u), db1)

/-- Method `userRepository.GetByEmail`. -/
def userRepository.GetByEmail (env : SqlEnv) (db : DB) (email : String) :
    Result (Option User) × DB :=
  let r : Except GoError User :=
    match env.queryErr with
    | some err => .error err
    | none => db.selectByEmail email
  match r with
  | .error err =>
    if err = GoError.ErrNoRows then (.ok none, db)
    else (.err (.errorf "error selecting user by email" err), db)
  | .ok u => (.ok (some u), db)

/-- Function `NewUserRepository`: the repository backed by the table. -/
def NewUserRepository (env : SqlEnv) : UserRepository DB :=
  { Create := userRepository.Create env, GetByEmail := userRepository.GetByEmail env }

/-! ## `internal/service/auth_service.go` -/

/-- Go struct `authService`. -/
structure authService (σ : Type) where
  repo : UserRepository σ
  jwtSecret : String
  tokenExpiry : Duration

/-- Function `NewAuthService`. -/
def NewAuthService {σ : Type} (repo : UserRepository σ) (jwtSecret : String)
    (tokenExpiry : Duration) : authService σ :=
  { repo := repo, jwtSecret := jwtSecret, tokenExpiry := tokenExpiry }

/-- What the outside world contributes to one call of the service. -/
structure CallEnv where
  /-- Entropy drawn by bcrypt for the salt. -/
  entropy : Nat
  /-- Result of `time.Now()` when the token is built. -/
  now : Time

/-- Method `authService.Register`. -/
def authService.Register {σ : Type} (L : Lib) (s : authService σ) (env : CallEnv) (st : σ)
    (req : RegisterRequest) : Result RegisterResponse × σ :=
  if req.Email = "" ∨ req.Password = "" then
    (.err (.new "email and password are required"), st)
  else
    match L.GenerateFromPassword req.Password DefaultCost env.entropy with
    | .error _ => (.err (.new "failed to hash password"), st)
    | .ok hashed =>
      let lang : Language :=
        if req.Lang = RegisterRequest_EN then Language_EN
        else if req.Lang = RegisterRequest_FA then Language_FA
        else Language_EN
      match s.repo.Create st req.Email hashed lang req.ReferrerCode with
      | (.err err, st1) => (.err err, st1)
      | (.panicked why, st1) => (.panicked why, st1)
      | (.ok none, st1) => (.panicked "nil pointer dereference", st1)
      | (.ok (some u), st1) =>
        let token := NewWithClaims .HS256
          [("sub", .str u.ID.String), ("email", .str u.Email),
            ("exp", .num (Time.Unix (Time.Add env.now s.tokenExpiry)))]
        match SignedString L token s.jwtSecret with
        | .error _ => (.err (.new "failed to sign JWT"), st1)
        | .ok jwtStr =>
          (.ok { Id := u.ID.String, ReferralCode := u.ReferralCode, JwtToken := jwtStr }, st1)

/-- Method `authService.Login`. -/
def authService.Login {σ : Type} (L : Lib) (s : authService σ) (env : CallEnv) (st : σ)
    (req : LoginRequest) : Result LoginResponse × σ :=
  if req.Email = "" ∨ req.Password = "" then
    (.err (.new "email and password are required"), st)
  else
    match s.repo.GetByEmail st req.Email with
    | (.err err, st1) => (.err err, st1)
    | (.panicked why, st1) => (.panicked why, st1)
    | (.ok none, st1) => (.err (.new "invalid email or password"), st1)
    | (.ok (some u), st1) =>
      match L.CompareHashAndPassword u.PasswordHash req.Password with
      | some _ => (.err (.new "invalid email or password"), st1)
      | none =>
        let token := NewWithClaims .HS256
          [("sub", .str u.ID.String), ("email", .str u.Email),
            ("exp", .num (Time.Unix (Time.Add env.now s.tokenExpiry)))]
        match SignedString L token s.jwtSecret with
        | .error _ => (.err (.new "failed to sign JWT"), st1)
        | .ok jwtStr => (.ok { JwtCode := jwtStr }, st1)

/-! ## `internal/service/auth_service_test.go`: the recording repository -/

/-- Go struct `mockUserRepo`: the last inputs of each method and the outputs it
is set to give. -/
structure mockUserRepo where
  createdEmail : String
  createdPasswordHash : String
  createdLang : Language
  createdReferrer : Int
  createResult : Option User
  createError : Option GoError
  getByEmailInput : String
  getByEmailUser : Option User
  getByEmailError : Option GoError
  deriving DecidableEq, Repr

/-- Method `mockUserRepo.Create`. -/
def mockUserRepo.Create (m : mockUserRepo) (email passwordHash : String) (lang : Language)
    (referrerCode : Int) : Result (Option User) × mockUserRepo :=
  let m1 : mockUserRepo :=
    { m with createdEmail := email, createdPasswordHash := passwordHash,
             createdLang := lang, createdReferrer := referrerCode }
  match m1.createError with
  | some err => (.err err, m1)
  | none => (.ok m1.createResult, m1)

/-- Method `mockUserRepo.GetByEmail`. -/
def mockUserRepo.GetByEmail (m : mockUserRepo) (email : String) :
    Result (Option User) × mockUserRepo :=
  let m1 : mockUserRepo := { m with getByEmailInput := email }
  match m1.getByEmailError with
  | some err => (.err err, m1)
  | none => (.ok m1.getByEmailUser, m1)

/-- The recording repository as a `UserRepository`. -/
def mockUserRepo.asRepository : UserRepository mockUserRepo :=
  { Create := mockUserRepo.Create, GetByEmail := mockUserRepo.GetByEmail }

/-- One call received by a repository. -/
inductive StoreCall where
  | create (email passwordHash : String) (lang : Language) (referrerCode : Int)
  | getByEmail (email : String)
  deriving DecidableEq, Repr

/-- A repository that appends every call it receives to a log before handing it
to `r`: the log shows which store accesses an operation made. -/
def traced {σ : Type} (r : UserRepository σ) : UserRepository (σ × List StoreCall) :=
  { Create := fun st email hash lang ref =>
      let out := r.Create st.1 email hash lang ref
      (out.1, (out.2, st.2 ++ [StoreCall.create email hash lang ref]))
    GetByEmail := fun st email =>
      let out := r.GetByEmail st.1 email
      (out.1, (out.2, st.2 ++ [StoreCall.getByEmail email])) }

/-! ## `internal/server/grpc_server.go`: the service the server builds -/

/-- Go `config.JWTConfig`. -/
structure JWTConfig where
  SigningKey : String
  deriving DecidableEq, Repr

/-- Go `config.Config`, the part the service reads. -/
structure Config where
  JWT : JWTConfig
  deriving DecidableEq, Repr

/-- The value `userSvc` of `NewAppServer`: the service over the SQL repository,
keyed by the configured signing key, with tokens valid for one hour. -/
def NewAppServer.userSvc (cfg : Config) (sql : SqlEnv) : authService DB :=
  NewAuthService (NewUserRepository sql) cfg.JWT.SigningKey (1 * Hour)

/-! ## An executable instance of the library primitives -/

/-- A transparent instance of `Lib` for evaluating the service on concrete
inputs: the hash is the password behind the bcrypt tag, verification recomputes
it, and a token is signed by joining the key to the signing string. -/
def plainLib : Lib :=
  { GenerateFromPassword := fun password _ _ => .ok ("$2a$10$" ++ password)
    CompareHashAndPassword := fun hashed password =>
      if hashed = "$2a$10$" ++ password then none
      else some (.external "bcrypt" "hashedPassword is not the hash of the given password")
    SigningString := fun _ => .ok "h.c"
    Sign := fun _ sstr key => .ok (key ++ sstr)
    EncodeSegment := fun b => b }

/-! ## Concrete inputs -/

/-- The identifier `123e4567-e89b-12d3-a456-426655440000` of the unit test. -/
def sampleID : UUID :=
  ⟨[0x12, 0x3e, 0x45, 0x67, 0xe8, 0x9b, 0x12, 0xd3, 0xa4, 0x56, 0x42, 0x66, 0x55, 0x44, 0x00, 0x00],
    rfl⟩

/-- Another identifier with the same first four bytes:
`123e4567-0000-4000-8000-000000000001`. -/
def sampleID2 : UUID :=
  ⟨[0x12, 0x3e, 0x45, 0x67, 0x00, 0x00, 0x40, 0x00, 0x80, 0x00, 0x00, 0x00, 0x00, 0x00, 0x00, 0x01],
    rfl⟩

/-- The row that registering `a@x.com` with password `pw123` under `plainLib`
stores. -/
def sampleRow : User :=
  { ID := sampleID, Email := "a@x.com", PasswordHash := "$2a$10$pw123", Lang := Language_EN,
    ReferralCode := "123e4567", ReferrerCode := 5, CreatedAt := 1700000000123456789 }

/-- The empty table. -/
def emptyDB : DB := { users := [] }

/-- The table holding `sampleRow` alone. -/
def sampleDB : DB := { users := [sampleRow] }

/-- A call environment of the repository without failure, drawing `sampleID`. -/
def sampleSql : SqlEnv :=
  { queryErr := none, newID := sampleID, now := 1700000000123456789, insertErr := none,
    insertLateErr := none }

/-- A call environment of the repository without failure, drawing `sampleID2`. -/
def sampleSql2 : SqlEnv :=
  { queryErr := none, newID := sampleID2, now := 1700000100000000000, insertErr := none,
    insertLateErr := none }

/-- A call environment of the repository in which the driver fails on every
statement. -/
def downSql : SqlEnv :=
  { queryErr := some (.external "pq" "connection refused"), newID := sampleID2,
    now := 1700000100000000000, insertErr := some (.external "pq" "connection refused"),
    insertLateErr := none }

/-- The record `mockUser` of `TestRegister_Success`. -/
def mockUser : User :=
  { ID := sampleID, Email := "alice@example.com", PasswordHash := "", Lang := Language_EN,
    ReferralCode := "abcd1234", ReferrerCode := 42, CreatedAt := 1700000000000000000 }

/-- The recording repository of `TestRegister_Success` before any call. -/
def mockRepo : mockUserRepo :=
  { createdEmail := "", createdPasswordHash := "", createdLang := 0, createdReferrer := 0,
    createResult := some mockUser, createError := none,
    getByEmailInput := "", getByEmailUser := none, getByEmailError := none }

/-- A call environment of the service. -/
def sampleEnv : CallEnv := { entropy := 7, now := 1700000000999999999 }

/-- A configuration with the signing key of the unit test. -/
def sampleCfg : Config := { JWT := { SigningKey := "test-secret" } }

/-! ## `internal/middleware` -/

/-- Go `metadata.MD`: the values of each header of a call, by lower-case name. -/
abbrev MD := List (String × List String)

/-- Method `MD.Get` for a lower-case key: the values of the header, none when it
is absent. -/
def MD.Get (md : MD) (k : String) : List String := (md.lookup k).getD []

/-- Go `context.Context` of an incoming call, as far as the interceptors read it:
what `metadata.FromIncomingContext` returns. -/
structure Context where
  incoming : Option MD
  deriving DecidableEq, Repr

/-- Go `grpc.UnaryServerInfo`. -/
structure UnaryServerInfo where
  FullMethod : String
  deriving DecidableEq, Repr

/-- Go `grpc.UnaryHandler` over a server state `σ`. -/
abbrev UnaryHandler (σ α ρ : Type) := Context → α → σ → Result ρ × σ

/-- Go `grpc.UnaryServerInterceptor` over a server state `σ`. -/
abbrev UnaryServerInterceptor (σ α ρ : Type) :=
  Context → α → UnaryServerInfo → UnaryHandler σ α ρ → σ → Result ρ × σ

/-- Constant `codes.Unauthenticated`. -/
def Unauthenticated : Nat := 16

/-- Variable `ErrUnauthenticated`. -/
def ErrUnauthenticated : GoError := .status Unauthenticated "unauthenticated"

/-- Go `strings.TrimPrefix`. -/
def TrimPrefix (s pre : String) : String :=
  if pre.data.isPrefixOf s.data then String.mk (s.data.drop pre.length) else s

/-- A token as `jwt.Parse` of dgrijalva/jwt-go returns it. -/
structure ParsedToken where
  Method : SigningMethod
  Valid : Bool
  deriving DecidableEq, Repr

/-- The parser of dgrijalva/jwt-go the interceptor calls: `jwt.Parse(tokenString,
keyFunc)`, where the key function receives the method the token names. -/
structure JwtParser where
  Parse : String → (SigningMethod → Except GoError String) → Except GoError ParsedToken

/-- The key function `AuthInterceptor` hands to `jwt.Parse`: the secret for a
method of the HMAC family, an error for any other. -/
def AuthInterceptor.keyFunc (jwtSecret : String) (method : SigningMethod) :
    Except GoError String :=
  match method with
  | .HS256 => .ok jwtSecret
  | .HS384 => .ok jwtSecret
  | .HS512 => .ok jwtSecret
  | _ => .error (.new "unexpected signing method")

/-- Function `AuthInterceptor`; the lines written to the logger are not part of
the model. -/
def AuthInterceptor {σ α ρ : Type} (J : JwtParser) (jwtSecret : String) :
    UnaryServerInterceptor σ α ρ :=
  fun ctx req _info handler st =>
    match ctx.incoming with
    | none => (.err ErrUnauthenticated, st)
    | some md =>
      let authHeaders := md.Get "authorization"
      match authHeaders with
      | [] => (.err ErrUnauthenticated, st)
      | first :: _ =>
        let tokenString := TrimPrefix first "Bearer "
        if tokenString = "" then (.err ErrUnauthenticated, st)
        else
          match J.Parse tokenString (AuthInterceptor.keyFunc jwtSecret) with
          | .error _ => (.err ErrUnauthenticated, st)
          | .ok token =>
            if !token.Valid then (.err ErrUnauthenticated, st)
            else handler ctx req st

/-- Function `UnaryLoggingInterceptor`: the handler's response and error, as they
are; the line written to the logger is not part of the model. -/
def UnaryLoggingInterceptor {σ α ρ : Type} : UnaryServerInterceptor σ α ρ :=
  fun ctx req _info handler st => handler ctx req st

/-- Function `grpc.ChainUnaryInterceptor`: the first interceptor is the outermost,
the handler of each is the rest of the chain. -/
def ChainUnaryInterceptor {σ α ρ : Type} :
    List (UnaryServerInterceptor σ α ρ) → UnaryServerInterceptor σ α ρ
  | [] => fun ctx req _info handler st => handler ctx req st
  | i :: rest => fun ctx req info handler st =>
      i ctx req info (fun c r s => ChainUnaryInterceptor rest c r info handler s) st

/-! ## `internal/handler/auth_handler.go` -/

/-- Go struct `AuthHandler`. -/
structure AuthHandler (σ : Type) where
  svc : authService σ

/-- Function `NewAuthHandler`. -/
def NewAuthHandler {σ : Type} (svc : authService σ) : AuthHandler σ := { svc := svc }

/-- Method `AuthHandler.Register`. -/
def AuthHandler.Register {σ : Type} (L : Lib) (h : AuthHandler σ) (env : CallEnv) :
    UnaryHandler σ RegisterRequest RegisterResponse :=
  fun _ctx req st => h.svc.Register L env st req

/-- Method `AuthHandler.Login`. -/
def AuthHandler.Login {σ : Type} (L : Lib) (h : AuthHandler σ) (env : CallEnv) :
    UnaryHandler σ LoginRequest LoginResponse :=
  fun _ctx req st => h.svc.Login L env st req

/-! ## `internal/server/grpc_server.go`: the server -/

/-- Go `*sqlx.DB`, an open connection pool. -/
structure SqlxDB where
  dsn : String
  deriving DecidableEq, Repr

/-- Go `*redis.Client`. -/
structure RedisClient where
  addr : String
  deriving DecidableEq, Repr

/-- Go `*grpc.Server`, by the names of the services registered on it. -/
structure GrpcServer where
  services : List String
  deriving DecidableEq, Repr

/-- Go struct `AppServer`; a handle that is `none` is the nil pointer.  The logger
is not part of the model. -/
structure AppServer where
  cfg : Config
  db : Option SqlxDB
  rdb : Option RedisClient
  GRPC : Option GrpcServer
  deriving DecidableEq, Repr

/-- Function `NewAppServer`; `connect` is the outcome of `sqlx.Connect` on the
configured data source. -/
def NewAppServer (cfg : Config) (connect : Except GoError SqlxDB) : Except GoError AppServer :=
  match connect with
  | .error err => .error (.errorf "postgres connect" err)
  | .ok db =>
    let grpcServer : GrpcServer := { services := ["Authentication", "ServerReflection"] }
    .ok { cfg := cfg, db := some db, rdb := none, GRPC := some grpcServer }

/-- The unary interceptor `NewAppServer` installs:
`grpc.ChainUnaryInterceptor(logInt, authInt)`. -/
def NewAppServer.interceptor {σ α ρ : Type} (J : JwtParser) (cfg : Config) :
    UnaryServerInterceptor σ α ρ :=
  ChainUnaryInterceptor [UnaryLoggingInterceptor, AuthInterceptor J cfg.JWT.SigningKey]

/-- A unary call of `Register` on the server `NewAppServer` builds: the installed
interceptor around the handler over the service over the SQL repository. -/
def NewAppServer.Register (J : JwtParser) (L : Lib) (cfg : Config) (sql : SqlEnv)
    (env : CallEnv) (info : UnaryServerInfo) (ctx : Context) (req : RegisterRequest) (db : DB) :
    Result RegisterResponse × DB :=
  NewAppServer.interceptor J cfg ctx req info
    (AuthHandler.Register L (NewAuthHandler (NewAppServer.userSvc cfg sql)) env) db

/-- A unary call of `Login` on the server `NewAppServer` builds. -/
def NewAppServer.Login (J : JwtParser) (L : Lib) (cfg : Config) (sql : SqlEnv)
    (env : CallEnv) (info : UnaryServerInfo) (ctx : Context) (req : LoginRequest) (db : DB) :
    Result LoginResponse × DB :=
  NewAppServer.interceptor J cfg ctx req info
    (AuthHandler.Login L (NewAuthHandler (NewAppServer.userSvc cfg sql)) env) db

/-- One step of `GracefulStop` that ran to its end. -/
inductive StopStep where
  | grpcStopped
  | dbClosed
  | rdbClosed
  deriving DecidableEq, Repr

/-- Method `AppServer.GracefulStop`: the outcome and the steps that ran before it.
A method called on a nil handle is a nil pointer dereference. -/
def AppServer.GracefulStop (a : AppServer) : Result Unit × List StopStep :=
  match a.GRPC with
  | none => (.panicked "nil pointer dereference", [])
  | some _ =>
    match a.db with
    | none => (.panicked "nil pointer dereference", [.grpcStopped])
    | some _ =>
      match a.rdb with
      | none => (.panicked "nil pointer dereference", [.grpcStopped, .dbClosed])
      | some _ => (.ok (), [.grpcStopped, .dbClosed, .rdbClosed])

/-! ## Sequences of store calls -/

/-- One call of the SQL repository, with what the outside world contributes to
it. -/
inductive StoreOp where
  | create (sql : SqlEnv) (email passwordHash : String) (lang : Language) (referrerCode : Int)
  | getByEmail (sql : SqlEnv) (email : String)

/-- The table after one call. -/
def StoreOp.run (db : DB) : StoreOp → DB
  | .create sql email passwordHash lang referrerCode =>
    (userRepository.Create sql db email passwordHash lang referrerCode).2
  | .getByEmail sql email => (userRepository.GetByEmail sql db email).2

/-- The table after a sequence of calls, one after the other. -/
def runOps (db : DB) (ops : List StoreOp) : DB := ops.foldl StoreOp.run db

/-- No two accounts of the table share an email. -/
def EmailsDistinct (db : DB) : Prop := db.users.Pairwise (fun a b => a.Email ≠ b.Email)

instance (db : DB) : Decidable (EmailsDistinct db) := by
  unfold EmailsDistinct; infer_instance

/-! ## More concrete inputs -/

/-- A parser for evaluating the interceptor on concrete inputs: it accepts the
tokens `plainLib` signs with the key the key function returns. -/
def plainParser : JwtParser :=
  { Parse := fun tokenString keyFunc =>
      match keyFunc .HS256 with
      | .error e => .error e
      | .ok key => .ok { Method := .HS256, Valid := tokenString == "h.c." ++ key ++ "h.c" } }

/-- Variable `bcrypt.ErrPasswordTooLong`. -/
def ErrPasswordTooLong : GoError :=
  .external "bcrypt" "bcrypt: password length exceeds 72 bytes"

/-- Variable `bcrypt.ErrMismatchedHashAndPassword`. -/
def ErrMismatchedHashAndPassword : GoError :=
  .external "bcrypt" "crypto/bcrypt: hashedPassword is not the hash of the given password"

/-- The primitives of `plainLib` with the two limits of bcrypt the service meets,
on passwords of one-byte characters: `GenerateFromPassword` refuses a password
of more than 72 bytes, and a hash depends on the first 72 bytes of the password
only, so that `CompareHashAndPassword` reads no further. -/
def bcrypt72 : Lib :=
  { plainLib with
    GenerateFromPassword := fun password _ _ =>
      if 72 < password.utf8ByteSize then .error ErrPasswordTooLong
      else .ok ("$2a$10$" ++ password)
    CompareHashAndPassword := fun hashed password =>
      if hashed = "$2a$10$" ++ String.mk (password.data.take 72) then none
      else some ErrMismatchedHashAndPassword }

/-- A password of 72 bytes. -/
def password72 : String := String.mk (List.replicate 72 'a')

/-- A password of 73 bytes. -/
def password73 : String := String.mk (List.replicate 73 'a')

/-- A fresh identifier, `9b2f0c1e-7a3d-4e5f-8a1b-2c3d4e5f6a7b`. -/
def sampleID3 : UUID :=
  ⟨[0x9b, 0x2f, 0x0c, 0x1e, 0x7a, 0x3d, 0x4e, 0x5f, 0x8a, 0x1b, 0x2c, 0x3d, 0x4e, 0x5f, 0x6a, 0x7b],
    rfl⟩

/-- Another fresh identifier, `c0ffee00-1111-4222-9333-444455556666`. -/
def sampleID4 : UUID :=
  ⟨[0xc0, 0xff, 0xee, 0x00, 0x11, 0x11, 0x42, 0x22, 0x93, 0x33, 0x44, 0x44, 0x55, 0x55, 0x66, 0x66],
    rfl⟩

/-- A call environment of the repository without failure, drawing `sampleID3`. -/
def sampleSql3 : SqlEnv :=
  { queryErr := none, newID := sampleID3, now := 1700000200000000000, insertErr := none,
    insertLateErr := none }

/-- A call environment of the repository, drawing `sampleID4`, in which the
connection is lost while the reply of the `INSERT` is read. -/
def lateSql : SqlEnv :=
  { queryErr := none, newID := sampleID4, now := 1700000300000000000, insertErr := none,
    insertLateErr := some (.external "pq" "connection reset by peer") }

/-- The row a `Create` of `b@x.com` stores under `sampleSql3`. -/
def rowB : User :=
  { ID := sampleID3, Email := "b@x.com", PasswordHash := "$2a$10$pw456", Lang := Language_EN,
    ReferralCode := "9b2f0c1e", ReferrerCode := 0, CreatedAt := 1700000200000000000 }

/-- The row a `Create` of `c@x.com` stores under `lateSql`. -/
def rowC : User :=
  { ID := sampleID4, Email := "c@x.com", PasswordHash := "$2a$10$pw789", Lang := Language_EN,
    ReferralCode := "c0ffee00", ReferrerCode := 0, CreatedAt := 1700000300000000000 }

/-- The incoming context of a call whose client attached no metadata: the
headers of the transport, no `authorization`. -/
def plainContext : Context :=
  { incoming := some [(":authority", ["localhost"]), ("content-type", ["application/grpc"]),
      ("user-agent", ["grpc-go"])] }

/-- The request of `TestIntegration_RegisterAndLogin`. -/
def registerReq : RegisterRequest :=
  { Email := "inttest@example.com", Password := "integrationPass123",
    Lang := RegisterRequest_EN, ReferrerCode := 99 }

/-- The login request of `TestIntegration_RegisterAndLogin`. -/
def loginReq : LoginRequest :=
  { Email := "inttest@example.com", Password := "integrationPass123" }

/-- The row `registerReq` stores under `plainLib` and `sampleSql`. -/
def registeredRow : User :=
  { ID := sampleID, Email := "inttest@example.com",
    PasswordHash := "$2a$10$integrationPass123", Lang := Language_EN,
    ReferralCode := "123e4567", ReferrerCode := 99, CreatedAt := 1700000000123456789 }

/-! ## Lookups in the table -/

theorem DB.emailExists_iff (db : DB) (email : String) :
    db.emailExists email = true ↔ ∃ u ∈ db.users, u.Email = email := by
  simp [DB.emailExists]

theorem DB.selectByEmail_unknown (db : DB) (email : String)
    (h : ∀ u ∈ db.users, u.Email ≠ email) : db.selectByEmail email = .error GoError.ErrNoRows := by
  have hf : db.users.find? (fun u => u.Email == email) = none := by
    simp [List.find?_eq_none]
    exact h
  simp [DB.selectByEmail, hf]

theorem DB.selectByEmail_known (db : DB) (email : String)
    (h : ∃ u ∈ db.users, u.Email = email) :
    ∃ u ∈ db.users, u.Email = email ∧ db.selectByEmail email = .ok u := by
  cases hf : db.users.find? (fun u => u.Email == email) with
  | none =>
    obtain ⟨u, hu, hue⟩ := h
    have := List.find?_eq_none.mp hf u hu
    simp [hue] at this
  | some u =>
    refine ⟨u, List.mem_of_find?_eq_some hf, ?_, ?_⟩
    · have := List.find?_some hf
      simpa using this
    · simp [DB.selectByEmail, hf]

theorem GetByEmail_unknown (sql : SqlEnv) (db : DB) (email : String)
    (hq : sql.queryErr = none) (h : ∀ u ∈ db.users, u.Email ≠ email) :
    userRepository.GetByEmail sql db email = (.ok none, db) := by
  simp [userRepository.GetByEmail, hq, DB.selectByEmail_unknown db email h]

theorem GetByEmail_known (sql : SqlEnv) (db : DB) (email : String)
    (hq : sql.queryErr = none) (h : ∃ u ∈ db.users, u.Email = email) :
    ∃ u ∈ db.users, u.Email = email ∧
      userRepository.GetByEmail sql db email = (.ok (some u), db) := by
  obtain ⟨u, hu, hue, hsel⟩ := DB.selectByEmail_known db email h
  exact ⟨u, hu, hue, by simp [userRepository.GetByEmail, hq, hsel]⟩

theorem Create_taken_email (sql : SqlEnv) (db : DB) (email hash : String) (lang : Language)
    (ref : Int) (hq : sql.queryErr = none) (h : ∃ u ∈ db.users, u.Email = email) :
    userRepository.Create sql db email hash lang ref
      = (.err (.new "email already registered"), db) := by
  have he := (DB.emailExists_iff db email).mpr h
  simp [userRepository.Create, hq, he]

/-! ## Validation -/

/-- C1: Register and Login with an empty email or an empty password fail with
the error of kind InvalidArgument and leave the store state as it was, over
every repository; over a repository that logs its calls the log is unchanged,
so neither `Create` nor `GetByEmail` was called. -/
theorem validation_precedes_store_access {σ : Type} (L : Lib) (s : authService σ) (env : CallEnv)
    (st : σ) (log : List StoreCall) (email password : String) (lang : RegisterRequest_Language)
    (referrerCode : Int) (h : email = "" ∨ password = "") :
    (∃ e, s.Register L env st ⟨email, password, lang, referrerCode⟩ = (.err e, st) ∧
        errorKind e = .InvalidArgument ∧ e.Error = "email and password are required") ∧
    (∃ e, s.Login L env st ⟨email, password⟩ = (.err e, st) ∧
        errorKind e = .InvalidArgument ∧ e.Error = "email and password are required") ∧
    (authService.Register L (NewAuthService (traced s.repo) s.jwtSecret s.tokenExpiry) env
        (st, log) ⟨email, password, lang, referrerCode⟩).2 = (st, log) ∧
    (authService.Login L (NewAuthService (traced s.repo) s.jwtSecret s.tokenExpiry) env
        (st, log) ⟨email, password⟩).2 = (st, log) := by
  refine ⟨⟨.new "email and password are required", ?_, by decide, rfl⟩,
    ⟨.new "email and password are required", ?_, by decide, rfl⟩, ?_, ?_⟩ <;>
  simp [authService.Register, authService.Login, h]

/-- Instance of C1: the second request of `TestRegister_MissingEmailOrPassword`
(an email, no password) against the table holding one account. -/
theorem validation_precedes_store_access_witness :
    ("bob@example.com" = "" ∨ "" = "") ∧
    (∃ e, (NewAppServer.userSvc sampleCfg sampleSql2).Register plainLib sampleEnv sampleDB
        ⟨"bob@example.com", "", RegisterRequest_EN, 0⟩ = (.err e, sampleDB) ∧
        errorKind e = .InvalidArgument ∧ e.Error = "email and password are required") ∧
    (authService.Login plainLib
        (NewAuthService (traced (NewAppServer.userSvc sampleCfg sampleSql2).repo)
          (NewAppServer.userSvc sampleCfg sampleSql2).jwtSecret
          (NewAppServer.userSvc sampleCfg sampleSql2).tokenExpiry) sampleEnv (sampleDB, [])
        ⟨"bob@example.com", ""⟩).2 = (sampleDB, []) :=
  have h := validation_precedes_store_access plainLib (NewAppServer.userSvc sampleCfg sampleSql2)
    sampleEnv sampleDB [] "bob@example.com" "" RegisterRequest_EN 0 (Or.inr rfl)
  ⟨Or.inr rfl, h.1, h.2.2.2⟩

/-! ## Rejected logins -/

/-- C2: for a non-empty email and a non-empty password, Login with an email the
table does not hold and Login with an email the table holds under a hash that
does not verify return the same error value, of kind InvalidCredentials, with
the same message, and so no token; the two runs may differ in everything else
(table, clock, key, lifetime). -/
theorem login_unknown_email_same_as_wrong_password (L : Lib) (secret1 secret2 : String)
    (ttl1 ttl2 : Duration) (env1 env2 : CallEnv) (sql1 sql2 : SqlEnv) (db1 db2 : DB)
    (email password : String) (hemail : email ≠ "") (hpw : password ≠ "")
    (hq1 : sql1.queryErr = none) (hq2 : sql2.queryErr = none)
    (hunknown : ∀ u ∈ db1.users, u.Email ≠ email)
    (hknown : ∃ u ∈ db2.users, u.Email = email)
    (hbad : ∀ u ∈ db2.users, u.Email = email →
      L.CompareHashAndPassword u.PasswordHash password ≠ none) :
    ∃ e,
      (NewAuthService (NewUserRepository sql1) secret1 ttl1).Login L env1 db1 ⟨email, password⟩
        = (.err e, db1) ∧
      (NewAuthService (NewUserRepository sql2) secret2 ttl2).Login L env2 db2 ⟨email, password⟩
        = (.err e, db2) ∧
      errorKind e = .InvalidCredentials ∧ e.Error = "invalid email or password" := by
  refine ⟨.new "invalid email or password", ?_, ?_, by decide, rfl⟩
  · simp [authService.Login, NewAuthService, NewUserRepository, hemail, hpw,
      GetByEmail_unknown sql1 db1 email hq1 hunknown]
  · obtain ⟨u, hu, hue, hget⟩ := GetByEmail_known sql2 db2 email hq2 hknown
    have hb := hbad u hu hue
    cases hc : L.CompareHashAndPassword u.PasswordHash password with
    | none => exact absurd hc hb
    | some e => simp [authService.Login, NewAuthService, NewUserRepository, hemail, hpw, hget, hc]

/-- Instance of C2: `a@x.com` with the password `wrong`, against the empty table
and against the table where `a@x.com` is registered with `pw123`. -/
theorem login_unknown_email_same_as_wrong_password_witness :
    ∃ e,
      (NewAuthService (NewUserRepository sampleSql) "test-secret" Hour).Login plainLib sampleEnv
        emptyDB ⟨"a@x.com", "wrong"⟩ = (.err e, emptyDB) ∧
      (NewAuthService (NewUserRepository sampleSql2) "another-secret" (2 * Hour)).Login plainLib
        sampleEnv sampleDB ⟨"a@x.com", "wrong"⟩ = (.err e, sampleDB) ∧
      errorKind e = .InvalidCredentials ∧ e.Error = "invalid email or password" :=
  login_unknown_email_same_as_wrong_password plainLib "test-secret" "another-secret" Hour
    (2 * Hour) sampleEnv sampleEnv sampleSql sampleSql2 emptyDB sampleDB "a@x.com" "wrong"
    (by decide) (by decide) rfl rfl (by decide) (by decide) (by decide)

/-! ## Registering a taken email -/

/-- C3, as stated, fails: the table holds `a@x.com`, and Register with that
email and the empty password is rejected by the validation, with the error of
kind InvalidArgument, not AlreadyExists.  Nor is the outcome AlreadyExists when
the existence query itself fails: the error is then the wrapped driver error. -/
theorem register_taken_email_empty_password :
    (∃ u ∈ sampleDB.users, u.Email = "a@x.com") ∧
    (NewAppServer.userSvc sampleCfg sampleSql2).Register plainLib sampleEnv sampleDB
        ⟨"a@x.com", "", RegisterRequest_EN, 0⟩
      = (.err (.new "email and password are required"), sampleDB) ∧
    errorKind (.new "email and password are required") ≠ .AlreadyExists ∧
    (NewAppServer.userSvc sampleCfg downSql).Register plainLib sampleEnv sampleDB
        ⟨"a@x.com", "other", RegisterRequest_EN, 0⟩
      = (.err (.errorf "error checking existing email" (.external "pq" "connection refused")),
          sampleDB) ∧
    errorKind (.errorf "error checking existing email" (.external "pq" "connection refused"))
      ≠ .AlreadyExists := by
  decide

/-- C3, amended: when the table holds an account with email `e`, Register with
`e` fails with the error of kind AlreadyExists and leaves the table as it was,
whatever the language and the referrer code, for every non-empty `e` and
non-empty password that the hashing accepts, when the existence query itself
does not fail. -/
theorem register_taken_email_already_exists (L : Lib) (secret : String) (ttl : Duration)
    (env : CallEnv) (sql : SqlEnv) (db : DB) (email password hashed : String)
    (lang : RegisterRequest_Language) (referrerCode : Int)
    (hemail : email ≠ "") (hpw : password ≠ "")
    (hhash : L.GenerateFromPassword password DefaultCost env.entropy = .ok hashed)
    (hq : sql.queryErr = none)
    (htaken : ∃ u ∈ db.users, u.Email = email) :
    ∃ e,
      (NewAuthService (NewUserRepository sql) secret ttl).Register L env db
        ⟨email, password, lang, referrerCode⟩ = (.err e, db) ∧
      errorKind e = .AlreadyExists ∧ e.Error = "email already registered" := by
  refine ⟨.new "email already registered", ?_, by decide, rfl⟩
  simp [authService.Register, NewAuthService, NewUserRepository, hemail, hpw, hhash,
    Create_taken_email sql db email hashed _ referrerCode hq htaken]

/-- Instance of C3 amended: the second Register of the specification's example,
`a@x.com` with the password `other`. -/
theorem register_taken_email_already_exists_witness :
    ∃ e,
      (NewAuthService (NewUserRepository sampleSql2) "test-secret" Hour).Register plainLib
        sampleEnv sampleDB ⟨"a@x.com", "other", RegisterRequest_FA, 0⟩ = (.err e, sampleDB) ∧
      errorKind e = .AlreadyExists ∧ e.Error = "email already registered" :=
  register_taken_email_already_exists plainLib "test-secret" Hour sampleEnv sampleSql2 sampleDB
    "a@x.com" "other" "$2a$10$other" RegisterRequest_FA 0 (by decide) (by decide) rfl rfl
    (by decide)

/-! ## Identifiers, tokens and the insert -/

theorem hexEncode_length (bs : List (Fin 256)) : (hexEncode bs).length = 2 * bs.length := by
  induction bs with
  | nil => rfl
  | cons b bs ih => simp [hexEncode, ih]; omega

theorem sliceTo_String (u : UUID) :
    sliceTo u.String 8 = some (String.mk (hexEncode (u.bytes.take 4))) := by
  have h4 : (hexEncode (u.bytes.take 4)).length = 8 := by
    simp [hexEncode_length, u.size]
  have hlen : 8 ≤ u.String.length := by
    simp only [UUID.String, String.length, List.length_append, h4]
    omega
  have hdata : u.String.data.take 8 = hexEncode (u.bytes.take 4) := by
    simp only [UUID.String]
    exact List.take_left' h4
  simp only [sliceTo, if_pos hlen, hdata]

theorem SignedString_ne_empty (L : Lib) (t : Token) (key s : String)
    (h : SignedString L t key = .ok s) : s ≠ "" := by
  unfold SignedString at h
  cases h1 : L.SigningString t with
  | error e => simp [h1] at h
  | ok sstr =>
    cases h2 : L.Sign t.Method sstr key with
    | error e => simp [h1, h2] at h
    | ok sig =>
      simp [h1, h2] at h
      intro hs
      have := congrArg String.length (h.trans hs)
      simp only [String.length_append] at this
      have hdot : ".".length = 1 := rfl
      have h0 : "".length = 0 := rfl
      omega

theorem Create_fresh (sql : SqlEnv) (db : DB) (email hash : String) (lang : Language) (ref : Int)
    (hq : sql.queryErr = none) (hi : sql.insertErr = none) (hl : sql.insertLateErr = none)
    (hfresh : ∀ u ∈ db.users, u.Email ≠ email)
    (hid : ∀ u ∈ db.users, u.ID ≠ sql.newID)
    (href : ∀ u ∈ db.users, some u.ReferralCode ≠ sliceTo sql.newID.String 8) :
    ∃ u, userRepository.Create sql db email hash lang ref
        = (.ok (some u), { users := db.users ++ [u] }) ∧
      u.ID = sql.newID ∧ u.Email = email ∧ u.PasswordHash = hash ∧ u.Lang = lang ∧
      some u.ReferralCode = sliceTo sql.newID.String 8 ∧ u.ReferrerCode = ref ∧
      u.CreatedAt = sql.now := by
  have he : db.emailExists email = false := by
    cases hb : db.emailExists email with
    | false => rfl
    | true =>
      obtain ⟨u, hu, hue⟩ := (DB.emailExists_iff db email).mp hb
      exact absurd hue (hfresh u hu)
  rw [sliceTo_String] at href ⊢
  refine ⟨{ ID := sql.newID, Email := email, PasswordHash := hash, Lang := lang,
            ReferralCode := String.mk (hexEncode (sql.newID.bytes.take 4)),
            ReferrerCode := ref, CreatedAt := sql.now }, ?_, rfl, rfl, rfl, rfl, rfl, rfl, rfl⟩
  have h1 : (db.users.any fun u => u.ID == sql.newID) = false := by
    simpa using hid
  have h2 : (db.users.any fun u => u.Email == email) = false := by
    simpa using hfresh
  have h3 : (db.users.any fun u =>
      u.ReferralCode == String.mk (hexEncode (sql.newID.bytes.take 4))) = false := by
    simpa using href
  simp [userRepository.Create, hq, hi, hl, he, sliceTo_String, DB.insert, h1, h2, h3]

/-! ## Register, then Login -/

/-- C4, as stated, fails: `a@x.com` is not registered, the password of 73 bytes
is not empty and the store does not fail, yet bcrypt refuses a password of more
than 72 bytes and Register returns `failed to hash password`, with no account
stored. -/
theorem register_long_password_fails :
    password73 ≠ "" ∧ password73.utf8ByteSize = 73 ∧
    (∀ u ∈ emptyDB.users, u.Email ≠ "a@x.com") ∧
    sampleSql.queryErr = none ∧ sampleSql.insertErr = none ∧ sampleSql.insertLateErr = none ∧
    (NewAppServer.userSvc sampleCfg sampleSql).Register bcrypt72 sampleEnv emptyDB
        ⟨"a@x.com", password73, RegisterRequest_EN, 5⟩
      = (.err (.new "failed to hash password"), emptyDB) := by
  decide

/-- C4, amended: for a non-empty email not yet in the table and a non-empty
password that the hashing accepts and verifies (for bcrypt, one of at most 72
bytes), when the store does not fail (no failure of the driver on the existence
query, on the `INSERT` or on its reply, and a fresh id that, with its referral
code, is not yet in the table) and signing with the key succeeds, Register
succeeds with a non-empty token and a following Login with the same email and
password against the resulting table, its lookup not failing, succeeds with a
non-empty token. -/
theorem register_then_login_succeeds (L : Lib) (secret : String) (ttl : Duration)
    (env1 env2 : CallEnv) (sql1 sql2 : SqlEnv) (db : DB) (email password : String)
    (lang : RegisterRequest_Language) (referrerCode : Int)
    (hemail : email ≠ "") (hpw : password ≠ "")
    (hfresh : ∀ u ∈ db.users, u.Email ≠ email)
    (hq1 : sql1.queryErr = none) (hi1 : sql1.insertErr = none)
    (hl1 : sql1.insertLateErr = none)
    (hid : ∀ u ∈ db.users, u.ID ≠ sql1.newID)
    (href : ∀ u ∈ db.users, some u.ReferralCode ≠ sliceTo sql1.newID.String 8)
    (hq2 : sql2.queryErr = none)
    (hgen : ∃ hashed, L.GenerateFromPassword password DefaultCost env1.entropy = .ok hashed ∧
      L.CompareHashAndPassword hashed password = none)
    (hsign : ∀ claims, ∃ t, SignedString L (NewWithClaims .HS256 claims) secret = .ok t) :
    ∃ r1 db1 r2,
      (NewAuthService (NewUserRepository sql1) secret ttl).Register L env1 db
        ⟨email, password, lang, referrerCode⟩ = (.ok r1, db1) ∧
      r1.JwtToken ≠ "" ∧
      (NewAuthService (NewUserRepository sql2) secret ttl).Login L env2 db1 ⟨email, password⟩
        = (.ok r2, db1) ∧
      r2.JwtCode ≠ "" := by
  obtain ⟨hashed, hgen, hcmp⟩ := hgen
  obtain ⟨u, hcreate, -, huemail, huhash, -⟩ :=
    Create_fresh sql1 db email hashed
      (if lang = RegisterRequest_EN then Language_EN
        else if lang = RegisterRequest_FA then Language_FA else Language_EN)
      referrerCode hq1 hi1 hl1 hfresh hid href
  obtain ⟨t1, ht1⟩ := hsign [("sub", .str u.ID.String), ("email", .str u.Email),
    ("exp", .num (Time.Unix (Time.Add env1.now ttl)))]
  obtain ⟨t2, ht2⟩ := hsign [("sub", .str u.ID.String), ("email", .str u.Email),
    ("exp", .num (Time.Unix (Time.Add env2.now ttl)))]
  have hget : userRepository.GetByEmail sql2 { users := db.users ++ [u] } email
      = (.ok (some u), { users := db.users ++ [u] }) := by
    obtain ⟨v, hv, hve, hg⟩ := GetByEmail_known sql2 { users := db.users ++ [u] } email hq2
      ⟨u, by simp, huemail⟩
    have hvu : v = u := by
      rcases List.mem_append.mp hv with h | h
      · exact absurd hve (hfresh v h)
      · simpa using h
    rw [hg, hvu]
  refine ⟨⟨u.ID.String, u.ReferralCode, t1⟩, { users := db.users ++ [u] }, ⟨t2⟩, ?_,
    SignedString_ne_empty L _ _ _ ht1, ?_, SignedString_ne_empty L _ _ _ ht2⟩
  · simp [authService.Register, NewAuthService, NewUserRepository, hemail, hpw, hgen, hcreate, ht1]
  · simp [authService.Login, NewAuthService, NewUserRepository, hemail, hpw, hget, huhash, hcmp,
      ht2]

/-- Instance of C4 amended: the example of the specification, Register and Login
of `a@x.com` with `pw123` from the empty table, under the primitives with the
limits of bcrypt. -/
theorem register_then_login_succeeds_witness :
    ∃ r1 db1 r2,
      (NewAuthService (NewUserRepository sampleSql) "test-secret" Hour).Register bcrypt72
        sampleEnv emptyDB ⟨"a@x.com", "pw123", RegisterRequest_EN, 5⟩ = (.ok r1, db1) ∧
      r1.JwtToken ≠ "" ∧
      (NewAuthService (NewUserRepository sampleSql2) "test-secret" Hour).Login bcrypt72
        sampleEnv db1 ⟨"a@x.com", "pw123"⟩ = (.ok r2, db1) ∧
      r2.JwtCode ≠ "" :=
  register_then_login_succeeds bcrypt72 "test-secret" Hour sampleEnv sampleEnv sampleSql
    sampleSql2 emptyDB "a@x.com" "pw123" RegisterRequest_EN 5 (by decide) (by decide)
    (by decide) rfl rfl rfl (by decide) (by decide) rfl ⟨"$2a$10$pw123", rfl, by decide⟩
    (fun _ => ⟨"h.c.test-secreth.c", rfl⟩)

/-! ## What a successful call went through -/

theorem Create_ok (sql : SqlEnv) (db db1 : DB) (email hash : String) (lang : Language) (ref : Int)
    (u : User) (h : userRepository.Create sql db email hash lang ref = (.ok (some u), db1)) :
    db1 = { users := db.users ++ [u] } ∧
    u = { ID := sql.newID, Email := email, PasswordHash := hash, Lang := lang,
          ReferralCode := String.mk (hexEncode (sql.newID.bytes.take 4)),
          ReferrerCode := ref, CreatedAt := sql.now } := by
  unfold userRepository.Create at h
  simp only [sliceTo_String, DB.insert] at h
  split at h
  · simp at h
  · split at h
    · simp at h
    · split at h
      · simp at h
      · split at h
        · simp at h
        · rename_i v db2 hins
          split at h
          · simp at h
          · simp only [Prod.mk.injEq, Result.ok.injEq, Option.some.injEq] at h
            split at hins
            · simp at hins
            · split at hins
              · simp at hins
              · split at hins
                · simp at hins
                · simp only [Except.ok.injEq, Prod.mk.injEq] at hins
                  rw [← h.1, ← h.2, ← hins.1, ← hins.2]
                  exact ⟨rfl, rfl⟩

theorem Register_ok {σ : Type} (L : Lib) (s : authService σ) (env : CallEnv) (st st1 : σ)
    (req : RegisterRequest) (resp : RegisterResponse)
    (h : s.Register L env st req = (.ok resp, st1)) :
    req.Email ≠ "" ∧ req.Password ≠ "" ∧
    ∃ hashed u,
      L.GenerateFromPassword req.Password DefaultCost env.entropy = .ok hashed ∧
      s.repo.Create st req.Email hashed
        (if req.Lang = RegisterRequest_EN then Language_EN
          else if req.Lang = RegisterRequest_FA then Language_FA else Language_EN)
        req.ReferrerCode = (.ok (some u), st1) ∧
      SignedString L (NewWithClaims .HS256
        [("sub", .str u.ID.String), ("email", .str u.Email),
          ("exp", .num (Time.Unix (Time.Add env.now s.tokenExpiry)))]) s.jwtSecret
        = .ok resp.JwtToken ∧
      resp = { Id := u.ID.String, ReferralCode := u.ReferralCode, JwtToken := resp.JwtToken } := by
  unfold authService.Register at h
  split at h
  · simp at h
  · rename_i hv
    simp only [not_or] at hv
    refine ⟨hv.1, hv.2, ?_⟩
    split at h
    · simp at h
    · rename_i hashed hgen
      refine ⟨hashed, ?_⟩
      simp only at h
      split at h
      · simp at h
      · simp at h
      · simp at h
      · rename_i u st2 hc
        split at h
        · simp at h
        · rename_i jwtStr hs
          simp only [Prod.mk.injEq, Result.ok.injEq] at h
          refine ⟨u, hgen, ?_, ?_, ?_⟩
          · rw [hc, h.2]
          · rw [hs, ← h.1]
          · rw [← h.1]

theorem Login_ok {σ : Type} (L : Lib) (s : authService σ) (env : CallEnv) (st st1 : σ)
    (req : LoginRequest) (resp : LoginResponse)
    (h : s.Login L env st req = (.ok resp, st1)) :
    req.Email ≠ "" ∧ req.Password ≠ "" ∧
    ∃ u,
      s.repo.GetByEmail st req.Email = (.ok (some u), st1) ∧
      L.CompareHashAndPassword u.PasswordHash req.Password = none ∧
      SignedString L (NewWithClaims .HS256
        [("sub", .str u.ID.String), ("email", .str u.Email),
          ("exp", .num (Time.Unix (Time.Add env.now s.tokenExpiry)))]) s.jwtSecret
        = .ok resp.JwtCode := by
  unfold authService.Login at h
  split at h
  · simp at h
  · rename_i hv
    simp only [not_or] at hv
    refine ⟨hv.1, hv.2, ?_⟩
    split at h
    · simp at h
    · simp at h
    · simp at h
    · rename_i u st2 hc
      split at h
      · simp at h
      · rename_i hcmp
        simp only at h
        split at h
        · simp at h
        · rename_i jwtStr hs
          simp only [Prod.mk.injEq, Result.ok.injEq] at h
          refine ⟨u, ?_, hcmp, ?_⟩
          · rw [hc, h.2]
          · rw [hs, ← h.1]

theorem GetByEmail_ok (sql : SqlEnv) (db db1 : DB) (email : String) (u : User)
    (h : userRepository.GetByEmail sql db email = (.ok (some u), db1)) :
    db1 = db ∧ u ∈ db.users ∧ u.Email = email := by
  unfold userRepository.GetByEmail at h
  simp only at h
  split at h
  · split at h <;> simp at h
  · rename_i v hr
    simp only [Prod.mk.injEq, Result.ok.injEq, Option.some.injEq] at h
    refine ⟨h.2.symm, ?_⟩
    rw [← h.1]
    split at hr
    · simp at hr
    · unfold DB.selectByEmail at hr
      split at hr
      · rename_i w hf
        simp only [Except.ok.injEq] at hr
        rw [← hr]
        exact ⟨List.mem_of_find?_eq_some hf, by simpa using List.find?_some hf⟩
      · simp at hr

theorem Create_ok_fresh (sql : SqlEnv) (db db1 : DB) (email hash : String) (lang : Language)
    (ref : Int) (u : User)
    (h : userRepository.Create sql db email hash lang ref = (.ok (some u), db1)) :
    ∀ v ∈ db.users, v.Email ≠ email := by
  intro v hv hve
  have he := (DB.emailExists_iff db email).mpr ⟨v, hv, hve⟩
  unfold userRepository.Create at h
  split at h
  · simp at h
  · simp [he] at h

theorem GetByEmail_appended (sql : SqlEnv) (db : DB) (u : User) (hq : sql.queryErr = none)
    (hfresh : ∀ v ∈ db.users, v.Email ≠ u.Email) :
    userRepository.GetByEmail sql { users := db.users ++ [u] } u.Email
      = (.ok (some u), { users := db.users ++ [u] }) := by
  obtain ⟨v, hv, hve, hg⟩ := GetByEmail_known sql { users := db.users ++ [u] } u.Email hq
    ⟨u, by simp, rfl⟩
  have hvu : v = u := by
    rcases List.mem_append.mp hv with h | h
    · exact absurd hve (hfresh v h)
    · simpa using h
  rw [hg, hvu]

theorem Register_reaches_store {σ : Type} (L : Lib) (s : authService σ) (env : CallEnv) (st : σ)
    (req : RegisterRequest) (hashed : String)
    (hemail : req.Email ≠ "") (hpw : req.Password ≠ "")
    (hhash : L.GenerateFromPassword req.Password DefaultCost env.entropy = .ok hashed) :
    (s.Register L env st req).2
      = (s.repo.Create st req.Email hashed
          (if req.Lang = RegisterRequest_EN then Language_EN
            else if req.Lang = RegisterRequest_FA then Language_FA else Language_EN)
          req.ReferrerCode).2 := by
  unfold authService.Register
  simp only [hemail, hpw, or_self, if_false, hhash]
  split
  · rename_i hc; rw [hc]
  · rename_i hc; rw [hc]
  · rename_i hc; rw [hc]
  · rename_i hc
    rw [hc]
    simp only
    split <;> rfl

/-! ## The hash handed to the store -/

/-- C5, as stated, fails: Register of `a@x.com` with the password of 72 bytes
succeeds and stores the hash bcrypt generated for it; that hash also verifies
against the different string that appends `b` to the password, and a Login with
that string is accepted. -/
theorem stored_hash_verifies_longer_password :
    (NewAppServer.userSvc sampleCfg sampleSql).Register bcrypt72 sampleEnv emptyDB
        ⟨"a@x.com", password72, RegisterRequest_EN, 5⟩
      = (.ok { Id := "123e4567-e89b-12d3-a456-426655440000", ReferralCode := "123e4567",
               JwtToken := "h.c.test-secreth.c" },
          { users := [{ sampleRow with PasswordHash := "$2a$10$" ++ password72 }] }) ∧
    password72 ++ "b" ≠ password72 ∧
    bcrypt72.CompareHashAndPassword ("$2a$10$" ++ password72) (password72 ++ "b") = none ∧
    (NewAppServer.userSvc sampleCfg sampleSql2).Login bcrypt72 sampleEnv
        { users := [{ sampleRow with PasswordHash := "$2a$10$" ++ password72 }] }
        ⟨"a@x.com", password72 ++ "b"⟩
      = (.ok { JwtCode := "h.c.test-secreth.c" },
          { users := [{ sampleRow with PasswordHash := "$2a$10$" ++ password72 }] }) := by
  decide

/-- C5, amended: in every successful Register the call log of the repository
gains one `Create` whose password hash is the hash `GenerateFromPassword`
returned for the request's password, unchanged, and over the SQL repository the
row added to the table carries that hash.  It verifies against the request's
password when the primitive verifies its own output, and a later Login with the
account's email and a non-empty string `q` is rejected by the password check
exactly when `CompareHashAndPassword` rejects `q` for that hash: what verifies
besides the password is decided by the primitive alone. -/
theorem stored_hash_is_generated_hash {σ : Type} (L : Lib) (s : authService σ)
    (env : CallEnv) (st : σ) (log : List StoreCall) (req : RegisterRequest)
    (resp : RegisterResponse) (out : σ × List StoreCall)
    (hreg : (NewAuthService (traced s.repo) s.jwtSecret s.tokenExpiry).Register L env (st, log) req
      = (.ok resp, out)) :
    ∃ hashed,
      L.GenerateFromPassword req.Password DefaultCost env.entropy = .ok hashed ∧
      (∃ lang, out.2 = log ++ [StoreCall.create req.Email hashed lang req.ReferrerCode]) ∧
      (∀ (secret : String) (ttl : Duration) (sql : SqlEnv) (db db1 : DB) (r : RegisterResponse),
        (NewAuthService (NewUserRepository sql) secret ttl).Register L env db req = (.ok r, db1) →
        ∃ u, db1.users = db.users ++ [u] ∧ u.Email = req.Email ∧ u.PasswordHash = hashed ∧
          ((∀ h, L.GenerateFromPassword req.Password DefaultCost env.entropy = .ok h →
              L.CompareHashAndPassword h req.Password = none) →
            L.CompareHashAndPassword u.PasswordHash req.Password = none) ∧
          (∀ (q : String) (env2 : CallEnv) (sql2 : SqlEnv), q ≠ "" → sql2.queryErr = none →
            (((NewAuthService (NewUserRepository sql2) secret ttl).Login L env2 db1
                ⟨req.Email, q⟩).1 = .err (.new "invalid email or password") ↔
              L.CompareHashAndPassword hashed q ≠ none))) := by
  obtain ⟨hemail, _, hashed, u0, hgen, hcreate0, _, _⟩ := Register_ok L _ env _ _ req resp hreg
  refine ⟨hashed, hgen,
    ⟨(if req.Lang = RegisterRequest_EN then Language_EN
        else if req.Lang = RegisterRequest_FA then Language_FA else Language_EN), ?_⟩, ?_⟩
  · have := congrArg (fun p => p.2.2) hcreate0
    simpa [NewAuthService, traced] using this.symm
  · intro secret ttl sql db db1 r hr
    obtain ⟨_, _, hashed2, u, hgen2, hcreate, _, _⟩ := Register_ok L _ env _ _ req r hr
    have hh : hashed2 = hashed := by
      rw [hgen] at hgen2
      simpa using hgen2.symm
    subst hh
    obtain ⟨hdb, hu⟩ := Create_ok sql db db1 _ _ _ _ u hcreate
    have hfresh := Create_ok_fresh sql db db1 _ _ _ _ u hcreate
    have hue : u.Email = req.Email := by rw [hu]
    have huh : u.PasswordHash = hashed2 := by rw [hu]
    refine ⟨u, by rw [hdb], hue, huh, fun hround => by rw [huh]; exact hround hashed2 hgen, ?_⟩
    intro q env2 sql2 hq hq2
    have hget : userRepository.GetByEmail sql2 db1 req.Email = (.ok (some u), db1) := by
      rw [hdb, ← hue]
      exact GetByEmail_appended sql2 db u hq2 (by rw [hue]; exact hfresh)
    cases hc : L.CompareHashAndPassword hashed2 q with
    | some e =>
      simp [authService.Login, NewAuthService, NewUserRepository, hemail, hq, hget, huh, hc]
    | none =>
      simp only [authService.Login, NewAuthService, NewUserRepository, hemail, hq, or_self,
        if_false, hget, huh, hc]
      split <;> simp

/-- Instance of C5 amended: Register of `a@x.com` with `pw123` from the empty
table, under the primitives with the limits of bcrypt. -/
theorem stored_hash_is_generated_hash_witness :
    ∃ hashed,
      bcrypt72.GenerateFromPassword "pw123" DefaultCost sampleEnv.entropy = .ok hashed ∧
      (∃ lang, ([] : List StoreCall) ++ [StoreCall.create "a@x.com" "$2a$10$pw123" Language_EN 5]
        = [] ++ [StoreCall.create "a@x.com" hashed lang 5]) :=
  have h := stored_hash_is_generated_hash bcrypt72 (NewAppServer.userSvc sampleCfg sampleSql)
    sampleEnv emptyDB [] ⟨"a@x.com", "pw123", RegisterRequest_EN, 5⟩
    ⟨"123e4567-e89b-12d3-a456-426655440000", "123e4567", "h.c.test-secreth.c"⟩
    (sampleDB, [] ++ [StoreCall.create "a@x.com" "$2a$10$pw123" Language_EN 5]) (by decide)
  h.imp fun _ hh => ⟨hh.1, hh.2.1⟩

/-! ## The language handed to the store -/

/-- C6: for every Register request that reaches the store (both fields
non-empty, hashing succeeded) the call log gains one `Create` whose language is
FA exactly when the request's language is FA and EN for every other request
value, so always EN or FA; over the SQL repository the row added by a
successful Register carries that language. -/
theorem register_language_normalised {σ : Type} (L : Lib) (s : authService σ) (env : CallEnv)
    (st : σ) (log : List StoreCall) (req : RegisterRequest) (hashed : String)
    (hemail : req.Email ≠ "") (hpw : req.Password ≠ "")
    (hhash : L.GenerateFromPassword req.Password DefaultCost env.entropy = .ok hashed) :
    ∃ lang : Language,
      ((NewAuthService (traced s.repo) s.jwtSecret s.tokenExpiry).Register L env (st, log) req).2.2
        = log ++ [StoreCall.create req.Email hashed lang req.ReferrerCode] ∧
      (lang = Language_FA ↔ req.Lang = RegisterRequest_FA) ∧
      (lang = Language_EN ↔ req.Lang ≠ RegisterRequest_FA) ∧
      (lang = Language_EN ∨ lang = Language_FA) ∧
      (∀ (secret : String) (ttl : Duration) (sql : SqlEnv) (db db1 : DB) (r : RegisterResponse),
        (NewAuthService (NewUserRepository sql) secret ttl).Register L env db req = (.ok r, db1) →
        ∃ u, db1.users = db.users ++ [u] ∧ u.Email = req.Email ∧ u.Lang = lang) := by
  refine ⟨(if req.Lang = RegisterRequest_EN then Language_EN
      else if req.Lang = RegisterRequest_FA then Language_FA else Language_EN), ?_, ?_, ?_, ?_, ?_⟩
  · rw [Register_reaches_store L _ env _ req hashed hemail hpw hhash]
    rfl
  · by_cases h1 : req.Lang = RegisterRequest_EN
    · simp [h1, Language_EN, Language_FA, RegisterRequest_EN, RegisterRequest_FA]
    · by_cases h2 : req.Lang = RegisterRequest_FA
      · simp [h2, Language_FA, RegisterRequest_EN, RegisterRequest_FA]
      · simp [h1, h2, Language_EN, Language_FA]
  · by_cases h1 : req.Lang = RegisterRequest_EN
    · simp [h1, RegisterRequest_EN, RegisterRequest_FA]
    · by_cases h2 : req.Lang = RegisterRequest_FA
      · simp [h2, Language_EN, Language_FA, RegisterRequest_EN, RegisterRequest_FA]
      · simp [h1, h2]
  · by_cases h1 : req.Lang = RegisterRequest_EN
    · rw [if_pos h1]; exact Or.inl rfl
    · by_cases h2 : req.Lang = RegisterRequest_FA
      · rw [if_neg h1, if_pos h2]; exact Or.inr rfl
      · rw [if_neg h1, if_neg h2]; exact Or.inl rfl
  · intro secret ttl sql db db1 r hr
    obtain ⟨_, _, hashed2, u, hgen, hcreate, _, _⟩ := Register_ok L _ env _ _ req r hr
    obtain ⟨hdb, hu⟩ := Create_ok sql db db1 _ _ _ _ u hcreate
    exact ⟨u, by rw [hdb], by rw [hu], by rw [hu]⟩

/-- Instance of C6: the unrecognised language value 7 reaches the store as EN. -/
theorem register_language_normalised_witness :
    ∃ lang : Language,
      ((NewAuthService (traced (NewUserRepository sampleSql)) "test-secret" Hour).Register plainLib
          sampleEnv (emptyDB, []) ⟨"a@x.com", "pw123", 7, 5⟩).2.2
        = [] ++ [StoreCall.create "a@x.com" "$2a$10$pw123" lang 5] ∧
      (lang = Language_FA ↔ (7 : Int) = RegisterRequest_FA) ∧
      (lang = Language_EN ↔ (7 : Int) ≠ RegisterRequest_FA) :=
  have h := register_language_normalised plainLib
    (NewAuthService (NewUserRepository sampleSql) "test-secret" Hour) sampleEnv emptyDB []
    ⟨"a@x.com", "pw123", 7, 5⟩ "$2a$10$pw123" (by decide) (by decide) rfl
  h.imp fun _ hl => ⟨hl.1, hl.2.1, hl.2.2.1⟩

/-! ## The token -/

theorem Unix_Add_seconds (now : Time) (k : Int) :
    Time.Unix (Time.Add now (k * 1000000000)) = Time.Unix now + k := by
  unfold Time.Unix Time.Add
  exact Int.add_mul_ediv_right now k (by decide)

/-- C7: over the SQL repository, the token of every successful Register is the
`SignedString` under the service's key of the HS256 token whose claims are
`sub`, the string form of the id of the account just stored, `email`, that
account's email, and `exp`, the Unix seconds of the issue time plus the
lifetime; the token of every successful Login is built in the same way from
the account the table holds for the email.  The service built by the server is
keyed by the configured signing key with a lifetime of one hour, for which
`exp` is the Unix seconds of the issue time plus 3600. -/
theorem issued_token_claims (L : Lib) (secret : String) (ttl : Duration) (env : CallEnv)
    (sql : SqlEnv) (db : DB) :
    (∀ (req : RegisterRequest) (resp : RegisterResponse) (db1 : DB),
      (NewAuthService (NewUserRepository sql) secret ttl).Register L env db req = (.ok resp, db1) →
      ∃ u, db1.users = db.users ++ [u] ∧ u.Email = req.Email ∧
        SignedString L
          { Method := .HS256,
            Claims := [("sub", .str u.ID.String), ("email", .str u.Email),
              ("exp", .num (Time.Unix (Time.Add env.now ttl)))] } secret = .ok resp.JwtToken) ∧
    (∀ (req : LoginRequest) (resp : LoginResponse) (db1 : DB),
      (NewAuthService (NewUserRepository sql) secret ttl).Login L env db req = (.ok resp, db1) →
      ∃ u ∈ db.users, u.Email = req.Email ∧
        SignedString L
          { Method := .HS256,
            Claims := [("sub", .str u.ID.String), ("email", .str u.Email),
              ("exp", .num (Time.Unix (Time.Add env.now ttl)))] } secret = .ok resp.JwtCode) ∧
    (∀ cfg : Config, NewAppServer.userSvc cfg sql
      = NewAuthService (NewUserRepository sql) cfg.JWT.SigningKey (3600 * 1000000000)) ∧
    Time.Unix (Time.Add env.now (3600 * 1000000000)) = Time.Unix env.now + 3600 := by
  refine ⟨?_, ?_, fun _ => rfl, Unix_Add_seconds env.now 3600⟩
  · intro req resp db1 h
    obtain ⟨_, _, hashed, u, _, hcreate, hs, _⟩ := Register_ok L _ env _ _ req resp h
    obtain ⟨hdb, hu⟩ := Create_ok sql db db1 _ _ _ _ u hcreate
    exact ⟨u, by rw [hdb], by rw [hu], hs⟩
  · intro req resp db1 h
    obtain ⟨_, _, u, hget, _, hs⟩ := Login_ok L _ env _ _ req resp h
    obtain ⟨_, hu, hue⟩ := GetByEmail_ok sql db db1 req.Email u hget
    exact ⟨u, hu, hue, hs⟩

/-- Instance of C7: Register of `a@x.com` from the empty table and Login against
the resulting table, with the lifetime of the server. -/
theorem issued_token_claims_witness :
    (∃ u, sampleDB.users = emptyDB.users ++ [u] ∧ u.Email = "a@x.com" ∧
      SignedString plainLib
        { Method := .HS256,
          Claims := [("sub", .str u.ID.String), ("email", .str u.Email),
            ("exp", .num (Time.Unix (Time.Add sampleEnv.now (3600 * 1000000000))))] }
        "test-secret" = .ok "h.c.test-secreth.c") ∧
    (∃ u ∈ sampleDB.users, u.Email = "a@x.com" ∧
      SignedString plainLib
        { Method := .HS256,
          Claims := [("sub", .str u.ID.String), ("email", .str u.Email),
            ("exp", .num (Time.Unix (Time.Add sampleEnv.now (3600 * 1000000000))))] }
        "test-secret" = .ok "h.c.test-secreth.c") ∧
    Time.Unix (Time.Add sampleEnv.now (3600 * 1000000000)) = Time.Unix sampleEnv.now + 3600 :=
  ⟨(issued_token_claims plainLib "test-secret" (3600 * 1000000000) sampleEnv sampleSql emptyDB).1
      ⟨"a@x.com", "pw123", RegisterRequest_EN, 5⟩
      ⟨"123e4567-e89b-12d3-a456-426655440000", "123e4567", "h.c.test-secreth.c"⟩ sampleDB
      (by decide),
    (issued_token_claims plainLib "test-secret" (3600 * 1000000000) sampleEnv sampleSql
      sampleDB).2.1 ⟨"a@x.com", "pw123"⟩ ⟨"h.c.test-secreth.c"⟩ sampleDB (by decide),
    (issued_token_claims plainLib "test-secret" (3600 * 1000000000) sampleEnv sampleSql
      sampleDB).2.2.2⟩

/-! ## The response of Register -/

/-- C8: in every successful Register the repository's `Create` returned a
record `u`, the response's id is the string form of `u`'s id, its referral code
is `u`'s, and its token is non-empty.  The response carries nothing of the
password or its hash: any other successful Register at the same instant whose
created record has the same id, email and referral code gives the same
response, whatever the two passwords and hashes. -/
theorem register_response_contents {σ : Type} (L : Lib) (s : authService σ) (env : CallEnv)
    (st st1 : σ) (req : RegisterRequest) (resp : RegisterResponse)
    (hreg : s.Register L env st req = (.ok resp, st1)) :
    ∃ hashed lang u,
      s.repo.Create st req.Email hashed lang req.ReferrerCode = (.ok (some u), st1) ∧
      resp.Id = u.ID.String ∧ resp.ReferralCode = u.ReferralCode ∧ resp.JwtToken ≠ "" ∧
      (∀ (env2 : CallEnv) (st2 st3 : σ) (req2 : RegisterRequest) (resp2 : RegisterResponse),
        env2.now = env.now →
        s.Register L env2 st2 req2 = (.ok resp2, st3) →
        (∀ hashed2 lang2 u2,
          s.repo.Create st2 req2.Email hashed2 lang2 req2.ReferrerCode = (.ok (some u2), st3) →
          u2.ID = u.ID ∧ u2.Email = u.Email ∧ u2.ReferralCode = u.ReferralCode) →
        resp2 = resp) := by
  obtain ⟨_, _, hashed, u, _, hcreate, hs, hresp⟩ := Register_ok L s env st st1 req resp hreg
  refine ⟨hashed, _, u, hcreate, ?_, ?_, SignedString_ne_empty L _ _ _ hs, ?_⟩
  · rw [hresp]
  · rw [hresp]
  · intro env2 st2 st3 req2 resp2 hnow hreg2 hagree
    obtain ⟨_, _, hashed2, u2, _, hcreate2, hs2, hresp2⟩ :=
      Register_ok L s env2 st2 st3 req2 resp2 hreg2
    obtain ⟨hid, hem, hrc⟩ := hagree _ _ u2 hcreate2
    rw [hid, hem, hnow, hs] at hs2
    rw [hresp2, hresp, hid, hrc]
    simp only [Except.ok.injEq] at hs2
    rw [hs2]

/-- Instance of C8: the request of `TestRegister_Success` against the recording
repository, which returns the record with referral code `abcd1234`. -/
theorem register_response_contents_witness :
    ∃ hashed lang u,
      mockUserRepo.asRepository.Create mockRepo "alice@example.com" hashed lang 42
        = (.ok (some u),
            { mockRepo with createdEmail := "alice@example.com",
                            createdPasswordHash := "$2a$10$password123",
                            createdLang := Language_EN, createdReferrer := 42 }) ∧
      "123e4567-e89b-12d3-a456-426655440000" = u.ID.String ∧ "abcd1234" = u.ReferralCode ∧
      "h.c.test-secreth.c" ≠ "" :=
  have h := register_response_contents plainLib
    (NewAuthService mockUserRepo.asRepository "test-secret" Hour) sampleEnv mockRepo
    { mockRepo with createdEmail := "alice@example.com",
                    createdPasswordHash := "$2a$10$password123",
                    createdLang := Language_EN, createdReferrer := 42 }
    ⟨"alice@example.com", "password123", RegisterRequest_EN, 42⟩
    ⟨"123e4567-e89b-12d3-a456-426655440000", "abcd1234", "h.c.test-secreth.c"⟩ (by decide)
  h.imp fun _ h1 => h1.imp fun _ h2 => h2.imp fun _ h3 => ⟨h3.1, h3.2.1, h3.2.2.1, h3.2.2.2.1⟩

/-! ## Failures of the store -/

/-- C9, as stated, fails: with the driver down, the error Register returns is
the very error value `Create` returned, and the error Login returns is the very
error value `GetByEmail` returned. -/
theorem register_returns_store_error_unchanged :
    (userRepository.Create downSql emptyDB "a@x.com" "$2a$10$pw123" Language_EN 5).1
      = .err (.errorf "error checking existing email" (.external "pq" "connection refused")) ∧
    ((NewAppServer.userSvc sampleCfg downSql).Register plainLib sampleEnv emptyDB
        ⟨"a@x.com", "pw123", RegisterRequest_EN, 5⟩).1
      = .err (.errorf "error checking existing email" (.external "pq" "connection refused")) ∧
    (userRepository.GetByEmail downSql sampleDB "a@x.com").1
      = .err (.errorf "error selecting user by email" (.external "pq" "connection refused")) ∧
    ((NewAppServer.userSvc sampleCfg downSql).Login plainLib sampleEnv sampleDB
        ⟨"a@x.com", "pw123"⟩).1
      = .err (.errorf "error selecting user by email" (.external "pq" "connection refused")) := by
  decide

/-- C9, amended: when `Create` fails, Register returns the error value of
`Create` unchanged, and that value is of kind Internal unless it is the email
conflict; when `GetByEmail` fails, Login returns its error value unchanged, and
that value is of kind Internal. -/
theorem store_failure_passed_through (L : Lib) (secret : String) (ttl : Duration)
    (env : CallEnv) (sql : SqlEnv) (db : DB) :
    (∀ (req : RegisterRequest) (hashed : String) (lang : Language) (e : GoError) (db1 : DB),
      req.Email ≠ "" → req.Password ≠ "" →
      L.GenerateFromPassword req.Password DefaultCost env.entropy = .ok hashed →
      lang = (if req.Lang = RegisterRequest_EN then Language_EN
        else if req.Lang = RegisterRequest_FA then Language_FA else Language_EN) →
      userRepository.Create sql db req.Email hashed lang req.ReferrerCode = (.err e, db1) →
      (NewAuthService (NewUserRepository sql) secret ttl).Register L env db req = (.err e, db1) ∧
      (e ≠ .new "email already registered" → errorKind e = .Internal)) ∧
    (∀ (req : LoginRequest) (e : GoError) (db1 : DB),
      req.Email ≠ "" → req.Password ≠ "" →
      userRepository.GetByEmail sql db req.Email = (.err e, db1) →
      (NewAuthService (NewUserRepository sql) secret ttl).Login L env db req = (.err e, db1) ∧
      errorKind e = .Internal) := by
  constructor
  · intro req hashed lang e db1 hemail hpw hgen hlang hc
    subst hlang
    constructor
    · simp [authService.Register, NewAuthService, NewUserRepository, hemail, hpw, hgen, hc]
    · intro hne
      unfold userRepository.Create at hc
      simp only [sliceTo_String] at hc
      split at hc
      · simp only [Prod.mk.injEq, Result.err.injEq] at hc
        rw [← hc.1]; rfl
      · split at hc
        · simp only [Prod.mk.injEq, Result.err.injEq] at hc
          exact absurd hc.1.symm hne
        · split at hc
          · simp only [Prod.mk.injEq, Result.err.injEq] at hc
            rw [← hc.1]; rfl
          · split at hc
            · simp only [Prod.mk.injEq, Result.err.injEq] at hc
              rw [← hc.1]; rfl
            · split at hc
              · simp only [Prod.mk.injEq, Result.err.injEq] at hc
                rw [← hc.1]; rfl
              · simp at hc
  · intro req e db1 hemail hpw hg
    constructor
    · simp [authService.Login, NewAuthService, NewUserRepository, hemail, hpw, hg]
    · unfold userRepository.GetByEmail at hg
      simp only at hg
      split at hg
      · split at hg
        · simp at hg
        · simp only [Prod.mk.injEq, Result.err.injEq] at hg
          rw [← hg.1]; rfl
      · simp at hg

/-- Instance of C9 amended: Register and Login with the driver down. -/
theorem store_failure_passed_through_witness :
    ((NewAuthService (NewUserRepository downSql) "test-secret" Hour).Register plainLib sampleEnv
        emptyDB ⟨"a@x.com", "pw123", RegisterRequest_EN, 5⟩
      = (.err (.errorf "error checking existing email" (.external "pq" "connection refused")),
          emptyDB) ∧
      (GoError.errorf "error checking existing email" (.external "pq" "connection refused")
          ≠ .new "email already registered" →
        errorKind (.errorf "error checking existing email" (.external "pq" "connection refused"))
          = .Internal)) ∧
    ((NewAuthService (NewUserRepository downSql) "test-secret" Hour).Login plainLib sampleEnv
        sampleDB ⟨"a@x.com", "pw123"⟩
      = (.err (.errorf "error selecting user by email" (.external "pq" "connection refused")),
          sampleDB) ∧
      errorKind (.errorf "error selecting user by email" (.external "pq" "connection refused"))
        = .Internal) :=
  ⟨(store_failure_passed_through plainLib "test-secret" Hour sampleEnv downSql emptyDB).1
      ⟨"a@x.com", "pw123", RegisterRequest_EN, 5⟩ "$2a$10$pw123" Language_EN _ emptyDB
      (by decide) (by decide) rfl rfl (by decide),
    (store_failure_passed_through plainLib "test-secret" Hour sampleEnv downSql sampleDB).2
      ⟨"a@x.com", "pw123"⟩ _ sampleDB (by decide) (by decide) (by decide)⟩

/-- C10 on the code: `b@x.com` is not in the table, so the pre-check passes, but
the fresh id shares its first eight characters with the referral code of the
stored account; the insert is rejected by the unique constraint on the referral
code and Register returns the wrapped insert error, of kind Internal, while the
pre-check path returns the email conflict, of kind AlreadyExists. -/
theorem register_referral_collision_not_already_exists :
    sampleDB.emailExists "b@x.com" = false ∧
    sliceTo sampleSql2.newID.String 8 = some sampleRow.ReferralCode ∧
    (NewAppServer.userSvc sampleCfg sampleSql2).Register plainLib sampleEnv sampleDB
        ⟨"b@x.com", "pw456", RegisterRequest_EN, 0⟩
      = (.err (.errorf "error inserting user" (.uniqueViolation "users_referral_code_key")),
          sampleDB) ∧
    errorKind (.errorf "error inserting user" (.uniqueViolation "users_referral_code_key"))
      = .Internal ∧
    (NewAppServer.userSvc sampleCfg sampleSql2).Register plainLib sampleEnv sampleDB
        ⟨"a@x.com", "pw456", RegisterRequest_EN, 0⟩
      = (.err (.new "email already registered"), sampleDB) ∧
    errorKind (.new "email already registered") = .AlreadyExists := by
  decide

/-! ## Calls through the server -/

theorem interceptor_without_authorization {σ α ρ : Type} (J : JwtParser) (cfg : Config)
    (ctx : Context) (req : α) (info : UnaryServerInfo) (handler : UnaryHandler σ α ρ) (st : σ)
    (h : ∀ md, ctx.incoming = some md → md.Get "authorization" = []) :
    NewAppServer.interceptor J cfg ctx req info handler st = (.err ErrUnauthenticated, st) := by
  unfold NewAppServer.interceptor
  simp only [ChainUnaryInterceptor, UnaryLoggingInterceptor, AuthInterceptor]
  cases hi : ctx.incoming with
  | none => rfl
  | some md => simp only [h md hi]

/-- C11 on the code: the call of `TestIntegration_RegisterAndLogin` carries no
`authorization` header; the interceptor chain of the server answers Register
with `ErrUnauthenticated` and leaves the table empty, although the handler, had
the call reached it, would have registered the account; a Login that follows,
even against a table that holds the account, is answered in the same way. -/
theorem server_rejects_calls_without_authorization :
    plainContext.incoming.map (fun md => md.Get "authorization") = some [] ∧
    NewAppServer.Register plainParser plainLib sampleCfg sampleSql sampleEnv
        ⟨"/Authentication/Register"⟩ plainContext registerReq emptyDB
      = (.err ErrUnauthenticated, emptyDB) ∧
    AuthHandler.Register plainLib (NewAuthHandler (NewAppServer.userSvc sampleCfg sampleSql))
        sampleEnv plainContext registerReq emptyDB
      = (.ok { Id := "123e4567-e89b-12d3-a456-426655440000", ReferralCode := "123e4567",
               JwtToken := "h.c.test-secreth.c" }, { users := [registeredRow] }) ∧
    NewAppServer.Login plainParser plainLib sampleCfg sampleSql2 sampleEnv
        ⟨"/Authentication/Login"⟩ plainContext loginReq { users := [registeredRow] }
      = (.err ErrUnauthenticated, { users := [registeredRow] }) ∧
    ErrUnauthenticated.Error = "rpc error: code = Unauthenticated desc = unauthenticated" := by
  decide

/-! ## Shutting the server down -/

theorem NewAppServer_leaves_rdb_unset (cfg : Config) (connect : Except GoError SqlxDB)
    (app : AppServer) (h : NewAppServer cfg connect = .ok app) :
    app.rdb = none ∧ app.db ≠ none ∧ app.GRPC ≠ none ∧
    app.GracefulStop = (.panicked "nil pointer dereference", [.grpcStopped, .dbClosed]) := by
  unfold NewAppServer at h
  split at h
  · simp at h
  · simp only [Except.ok.injEq] at h
    subst h
    simp [AppServer.GracefulStop]

/-- C15 on the code: the server `NewAppServer` returns has no Redis handle, and
`GracefulStop` on it stops the gRPC server, closes the database and then calls
`Close` on the nil Redis handle: it does not run to completion. -/
theorem graceful_stop_dereferences_unset_rdb :
    NewAppServer sampleCfg (.ok { dsn := "host=localhost port=5432 dbname=app sslmode=disable" })
      = .ok { cfg := sampleCfg,
              db := some { dsn := "host=localhost port=5432 dbname=app sslmode=disable" },
              rdb := none,
              GRPC := some { services := ["Authentication", "ServerReflection"] } } ∧
    AppServer.GracefulStop
        { cfg := sampleCfg,
          db := some { dsn := "host=localhost port=5432 dbname=app sslmode=disable" },
          rdb := none,
          GRPC := some { services := ["Authentication", "ServerReflection"] } }
      = (.panicked "nil pointer dereference", [.grpcStopped, .dbClosed]) :=
  ⟨rfl, by decide⟩

/-! ## The referral code -/

theorem hexDigit_mem (n : Nat) (h : n < 16) : hexDigit n ∈ hextable.data := by
  interval_cases n <;> decide

theorem hexEncode_mem (bs : List (Fin 256)) : ∀ c ∈ hexEncode bs, c ∈ hextable.data := by
  induction bs with
  | nil => intro c hc; simp [hexEncode] at hc
  | cons b bs ih =>
    intro c hc
    simp only [hexEncode, List.mem_cons] at hc
    rcases hc with h | h | h
    · rw [h]; exact hexDigit_mem _ (by have := b.isLt; omega)
    · rw [h]; exact hexDigit_mem _ (Nat.mod_lt _ (by decide))
    · exact ih c h

theorem UUID.String_length (u : UUID) : u.String.length = 36 := by
  simp only [UUID.String, String.length, List.length_append, List.length_cons, hexEncode_length,
    List.length_take, List.length_drop, u.size]
  rfl

/-- C12: the referral code of every account `Create` stores is the first eight
characters of the string form of the account's id, the id the call drew; that
string has 36 characters, so the slice is within bounds for every id and
`Create` never panics; the code has length 8 and each of its characters is
one of `0123456789abcdef`, so none is a hyphen. -/
theorem referral_code_is_id_head (sql : SqlEnv) (db db1 : DB) (email hash : String)
    (lang : Language) (ref : Int) (u : User)
    (h : userRepository.Create sql db email hash lang ref = (.ok (some u), db1)) :
    u.ID = sql.newID ∧
    u.ID.String.length = 36 ∧
    sliceTo u.ID.String 8 = some u.ReferralCode ∧
    u.ReferralCode = String.mk (u.ID.String.data.take 8) ∧
    u.ReferralCode.length = 8 ∧
    (∀ c ∈ u.ReferralCode.data, c ∈ hextable.data) ∧
    '-' ∉ u.ReferralCode.data ∧
    (∀ id : UUID, sliceTo id.String 8 ≠ none) ∧
    (∀ (sql2 : SqlEnv) (db2 : DB) (email2 hash2 : String) (lang2 : Language) (ref2 : Int)
      (why : String),
      (userRepository.Create sql2 db2 email2 hash2 lang2 ref2).1 ≠ .panicked why) := by
  obtain ⟨-, hu⟩ := Create_ok sql db db1 email hash lang ref u h
  have hid : u.ID = sql.newID := by rw [hu]
  have hrc : u.ReferralCode = String.mk (hexEncode (sql.newID.bytes.take 4)) := by rw [hu]
  have hslice := sliceTo_String sql.newID
  have h4 : (hexEncode (sql.newID.bytes.take 4)).length = 8 := by
    simp [hexEncode_length, sql.newID.size]
  have hmem : ∀ c ∈ u.ReferralCode.data, c ∈ hextable.data := by
    rw [hrc]; exact hexEncode_mem _
  refine ⟨hid, UUID.String_length _, ?_, ?_, ?_, hmem, ?_, ?_, ?_⟩
  · rw [hid, hrc, hslice]
  · rw [hid, hrc]
    have : sql.newID.String.data.take 8 = hexEncode (sql.newID.bytes.take 4) := by
      simp only [UUID.String]
      exact List.take_left' h4
    rw [this]
  · rw [hrc]; exact h4
  · intro hc
    have := hmem _ hc
    revert this
    decide
  · intro id hn
    rw [sliceTo_String] at hn
    simp at hn
  · intro sql2 db2 email2 hash2 lang2 ref2 why hp
    unfold userRepository.Create at hp
    simp only [sliceTo_String] at hp
    split at hp
    · simp at hp
    · split at hp
      · simp at hp
      · split at hp
        · simp at hp
        · split at hp
          · simp at hp
          · split at hp
            · simp at hp
            · simp at hp

/-- Instance of C12: the account Register of `a@x.com` stores from the empty
table has the referral code `123e4567`, the head of its id. -/
theorem referral_code_is_id_head_witness :
    sampleRow.ID = sampleSql.newID ∧
    sampleRow.ID.String.length = 36 ∧
    sliceTo sampleRow.ID.String 8 = some sampleRow.ReferralCode ∧
    sampleRow.ReferralCode = String.mk (sampleRow.ID.String.data.take 8) ∧
    sampleRow.ReferralCode.length = 8 ∧
    (∀ c ∈ sampleRow.ReferralCode.data, c ∈ hextable.data) ∧
    '-' ∉ sampleRow.ReferralCode.data :=
  have h := referral_code_is_id_head sampleSql emptyDB sampleDB "a@x.com" "$2a$10$pw123"
    Language_EN 5 sampleRow (by decide)
  ⟨h.1, h.2.1, h.2.2.1, h.2.2.2.1, h.2.2.2.2.1, h.2.2.2.2.2.1, h.2.2.2.2.2.2.1⟩

/-! ## What a failed call leaves behind -/

theorem Create_state (sql : SqlEnv) (db : DB) (email hash : String) (lang : Language)
    (ref : Int) :
    ((∃ e, (userRepository.Create sql db email hash lang ref).1 = .err e) ∧
      (userRepository.Create sql db email hash lang ref).2 = db) ∨
    (∃ u, (userRepository.Create sql db email hash lang ref).2 = { users := db.users ++ [u] } ∧
      u.Email = email ∧ (∀ v ∈ db.users, v.Email ≠ email) ∧
      ((userRepository.Create sql db email hash lang ref).1 = .ok (some u) ∨
        ∃ err, sql.insertLateErr = some err ∧
          (userRepository.Create sql db email hash lang ref).1
            = .err (.errorf "error inserting user" err))) := by
  unfold userRepository.Create
  simp only [sliceTo_String, DB.insert]
  split
  · exact Or.inl ⟨⟨_, rfl⟩, rfl⟩
  · split
    · exact Or.inl ⟨⟨_, rfl⟩, rfl⟩
    · rename_i hne
      have hfresh : ∀ v ∈ db.users, v.Email ≠ email := by
        intro v hv hve
        exact hne ((DB.emailExists_iff db email).mpr ⟨v, hv, hve⟩)
      split
      · exact Or.inl ⟨⟨_, rfl⟩, rfl⟩
      · split
        · exact Or.inl ⟨⟨_, rfl⟩, rfl⟩
        · rename_i v db2 hins
          right
          split at hins
          · simp at hins
          · split at hins
            · simp at hins
            · split at hins
              · simp at hins
              · simp only [Except.ok.injEq, Prod.mk.injEq] at hins
                refine ⟨v, ?_, by rw [← hins.1], hfresh, ?_⟩
                · split
                  · show db2 = _
                    rw [← hins.2, ← hins.1]
                  · show db2 = _
                    rw [← hins.2, ← hins.1]
                · split
                  · rename_i err hl
                    exact Or.inr ⟨err, hl, rfl⟩
                  · exact Or.inl rfl

theorem Create_err (sql : SqlEnv) (db db1 : DB) (email hash : String) (lang : Language)
    (ref : Int) (e : GoError)
    (h : userRepository.Create sql db email hash lang ref = (.err e, db1)) :
    db1 = db ∨
    ∃ u err, db1 = { users := db.users ++ [u] } ∧ u.Email = email ∧
      sql.insertLateErr = some err ∧ e = .errorf "error inserting user" err := by
  rcases Create_state sql db email hash lang ref with ⟨-, hs⟩ | ⟨u, hs, hue, -, hr⟩
  · rw [h] at hs; exact Or.inl hs
  · rw [h] at hs hr
    rcases hr with hr | ⟨err, hl, hr⟩
    · simp at hr
    · simp only [Result.err.injEq] at hr
      exact Or.inr ⟨u, err, hs, hue, hl, hr⟩

theorem EmailsDistinct_append (db : DB) (u : User) (h : EmailsDistinct db)
    (hu : ∀ v ∈ db.users, v.Email ≠ u.Email) :
    EmailsDistinct { users := db.users ++ [u] } := by
  unfold EmailsDistinct at *
  rw [List.pairwise_append]
  refine ⟨h, List.pairwise_singleton _ _, ?_⟩
  intro a ha b hb
  simp only [List.mem_singleton] at hb
  rw [hb]
  exact hu a ha

theorem GetByEmail_state (sql : SqlEnv) (db : DB) (email : String) :
    (userRepository.GetByEmail sql db email).2 = db := by
  unfold userRepository.GetByEmail
  simp only
  split
  · split <;> rfl
  · rfl

theorem StoreOp.run_distinct (db : DB) (op : StoreOp) (h : EmailsDistinct db) :
    EmailsDistinct (StoreOp.run db op) := by
  cases op with
  | create sql email hash lang ref =>
    simp only [StoreOp.run]
    rcases Create_state sql db email hash lang ref with ⟨-, hs⟩ | ⟨u, hs, hue, hfresh, -⟩
    · rw [hs]; exact h
    · rw [hs]
      refine EmailsDistinct_append db u h ?_
      intro v hv
      rw [hue]
      exact hfresh v hv
  | getByEmail sql email =>
    simp only [StoreOp.run]
    rw [GetByEmail_state]; exact h

end EmailMarketing
